import Mathlib

/-!
# chaos-monkey: the Mutation Attack Engine

A shallow embedding of `src/mutation-worker.js` (mutation generator and attack
dispatcher), of the capture buffer and of the job, status, replay and scan
endpoints of `src/server.js`, and of the attack list of
`src/auto-pilot-worker.js`, followed by the properties proved about them.

Conventions of the embedding

* A request body is a JSON tree (`Json`).  An object is the list of its own
  properties in `for ... in` enumeration order; a JavaScript object has no two
  properties of the same name, which `wellKeyed` asks for.
* JSON numbers are never computed with by the code; they are carried as `Int`.
* `undefined` is `none` in an `Option Json`.
* A thrown exception is `Except.error`.  `JsErr.typeError` is a thrown
  `TypeError`.  `JsErr.outsideModel` marks an access whose result depends on
  properties inherited from a prototype (`length`, `constructor`, ...), or
  that would leave the JSON data model (a hole in an array): the embedding
  makes no statement about those.
-/

namespace ChaosMonkey

/-! ## JSON values -/

/-- JSON-like tree: the body of a captured request, a payload, a response body. -/
inductive Json where
  | null : Json
  | bool (b : Bool) : Json
  | num (n : Int) : Json
  | str (s : String) : Json
  | arr (items : List Json) : Json
  | obj (props : List (String × Json)) : Json
  deriving Repr

/-- What a modelled JavaScript operation can raise. -/
inductive JsErr where
  | typeError : JsErr
  | outsideModel : JsErr
  deriving DecidableEq, Repr

/-- JavaScript `typeof v === 'string'`. -/
def Json.isString : Json → Bool
  | .str _ => true
  | _ => false

/-- JavaScript `typeof v === 'object' && v !== null`. -/
def Json.isComposite : Json → Bool
  | .arr _ => true
  | .obj _ => true
  | _ => false

/-- Names that every plain object inherits from `Object.prototype`. -/
def objectPrototypeNames : List String :=
  ["constructor", "__proto__", "toString", "toLocaleString", "valueOf",
   "hasOwnProperty", "isPrototypeOf", "propertyIsEnumerable",
   "__defineGetter__", "__defineSetter__", "__lookupGetter__", "__lookupSetter__"]

/-- The array index that the property name `key` denotes in an array of
`len` elements: the `i < len` whose decimal form is `key`. -/
def arrayIndex (key : String) (len : Nat) : Option Nat :=
  (List.range len).find? (fun i => toString i = key)

/-- Property read `cur[key]`; `none` is `undefined`. -/
def getProp (cur : Json) (key : String) : Except JsErr (Option Json) :=
  match cur with
  | .null => .error .typeError
  | .obj props =>
    match props.lookup key with
    | some v => .ok (some v)
    | none => if key ∈ objectPrototypeNames then .error .outsideModel else .ok none
  | .arr items =>
    match arrayIndex key items.length with
    | some i => .ok items[i]?
    | none => .error .outsideModel
  | _ => .error .outsideModel

/-- Object property write on a property list: an own property keeps its place
and gets the new value, a new property is added after the others. -/
def setOwn {α : Type} (key : String) (value : α) : List (String × α) → List (String × α)
  | [] => [(key, value)]
  | (k, v) :: rest => if k = key then (k, value) :: rest else (k, v) :: setOwn key value rest

/-- Property write `cur[key] = value` (non-strict code: a write on a primitive
is silently dropped, a write on `null` or `undefined` throws). -/
def assignProp (cur : Json) (key : String) (value : Json) : Except JsErr Json :=
  match cur with
  | .null => .error .typeError
  | .obj props =>
    if (props.lookup key).isNone ∧ key = "__proto__" then .error .outsideModel
    else .ok (.obj (setOwn key value props))
  | .arr items =>
    match arrayIndex key items.length with
    | some i => .ok (.arr (items.set i value))
    | none => .error .outsideModel
  | prim => .ok prim

/-- JavaScript `path.split('.')`. -/
def splitPath (path : String) : List String :=
  (path.data.splitOn '.').map String.mk

/-- The loop of `setByPath` over `parts`: all parts but the last are read
(`current = current[parts[i]]`), the last one is written.  The tree is returned
with the write done in place. -/
def setParts (cur : Json) : List String → Json → Except JsErr Json
  | [], _ => .error .outsideModel
  | [last], value => assignProp cur last value
  | part :: rest, value =>
    match getProp cur part with
    | .error e => .error e
    | .ok none => .error .typeError
    | .ok (some child) =>
      match setParts child rest value with
      | .error e => .error e
      | .ok child' => assignProp cur part child'

/-- `setByPath(obj, path, value)` of `mutation-worker.js`. -/
def setByPath (obj : Json) (path : String) (value : Json) : Except JsErr Json :=
  setParts obj (splitPath path) value

/-! ## The mutation catalog -/

/-- One entry of `ATTACK_VECTORS`. -/
structure AttackVector where
  type : String
  payload : Json
  deriving Repr

/-- The table `ATTACK_VECTORS` of `mutation-worker.js`. -/
def ATTACK_VECTORS : List AttackVector :=
  [ ⟨"SQLi", .str "' OR '1'='1"⟩,
    ⟨"SQLi", .str "'; DROP TABLE users; --"⟩,
    ⟨"SQLi", .str "' UNION SELECT 1, version(), 3 --"⟩,
    ⟨"NoSQLi", .obj [("$ne", .null)]⟩,
    ⟨"NoSQLi", .obj [("$gt", .str "")]⟩,
    ⟨"NoSQLi", .obj [("$where", .str "sleep(1000)")]⟩,
    ⟨"CMDi", .str "; ls -la"⟩,
    ⟨"CMDi", .str "`cat /etc/passwd`"⟩,
    ⟨"CMDi", .str "|| ping -c 10 127.0.0.1"⟩,
    ⟨"XSS", .str "<script>alert('HACKED')</script>"⟩,
    ⟨"XSS", .str "\"><img src=x onerror=alert(1)>"⟩,
    ⟨"Overflow", .str (String.mk (List.replicate 5000 'A'))⟩,
    ⟨"FormatString", .str "%s%s%s%s%s"⟩ ]

/-! ## The mutation generator -/

/-- One element of the array returned by `generateMutations`. -/
structure Mutation where
  mutationType : String
  field : String
  payload : Json
  body : Json
  deriving Repr

/-- The helper `clone`: `JSON.parse(JSON.stringify(obj))`.  On a JSON tree the
round trip gives back an equal tree that shares nothing with its argument; in a
value model that is the tree itself. -/
def clone (obj : Json) : Json := obj

/-- The template `path ? path.key : key` that builds `newPath`. -/
def joinPath (path key : String) : String :=
  if path = "" then key else path ++ "." ++ key

/-- The body of `ATTACK_VECTORS.forEach` for the field at `newPath`: one
candidate per vector, each on a fresh clone of the root body. -/
def mutateField (root : Json) (newPath : String) : List AttackVector → Except JsErr (List Mutation)
  | [] => .ok []
  | vector :: vectors =>
    match setByPath (clone root) newPath vector.payload with
    | .error e => .error e
    | .ok mutatedRoot =>
      match mutateField root newPath vectors with
      | .error e => .error e
      | .ok more =>
        .ok ({ mutationType := vector.type, field := newPath,
               payload := vector.payload, body := mutatedRoot } :: more)

mutual
/-- `generateMutations(obj, path)` of `mutation-worker.js`; `root` is
`workerData.originalReq.body`. -/
def generateMutations (root : Json) : Json → String → Except JsErr (List Mutation)
  | .obj props, path => genProps root path props
  | .arr items, path => genItems root path 0 items
  | _, _ => .ok []
/-- The `for (const key in obj)` loop over the properties of an object. -/
def genProps (root : Json) (path : String) : List (String × Json) → Except JsErr (List Mutation)
  | [] => .ok []
  | (key, value) :: rest =>
    match generateMutations root value (joinPath path key) with
    | .error e => .error e
    | .ok deeper =>
      match mutateField root (joinPath path key) ATTACK_VECTORS with
      | .error e => .error e
      | .ok here =>
        match genProps root path rest with
        | .error e => .error e
        | .ok more => .ok (deeper ++ here ++ more)
/-- The `for (const key in obj)` loop over the elements of an array, from
index `i` on. -/
def genItems (root : Json) (path : String) (i : Nat) : List Json → Except JsErr (List Mutation)
  | [] => .ok []
  | value :: rest =>
    match generateMutations root value (joinPath path (toString i)) with
    | .error e => .error e
    | .ok deeper =>
      match mutateField root (joinPath path (toString i)) ATTACK_VECTORS with
      | .error e => .error e
      | .ok here =>
        match genItems root path (i + 1) rest with
        | .error e => .error e
        | .ok more => .ok (deeper ++ here ++ more)
end

/-- The number of keys and indices met in the recursive walk of a body: every
child of every object or array node, at any depth, the root excluded. -/
def countFieldOccurrences : Json → Nat
  | .obj props => countProps props
  | .arr items => countItems items
  | _ => 0
where
  /-- Children below and including the properties of an object. -/
  countProps : List (String × Json) → Nat
    | [] => 0
    | (_, value) :: rest => countFieldOccurrences value + 1 + countProps rest
  /-- Children below and including the elements of an array. -/
  countItems : List Json → Nat
    | [] => 0
    | value :: rest => countFieldOccurrences value + 1 + countItems rest

/-! ## The capture buffer (`server.js`) -/

/-- One entry of `capturedRequests`. -/
structure CapturedRequest where
  id : String
  timestamp : String
  method : String
  headers : List (String × String)
  body : Json
  deriving Repr

/-- What the trap endpoint reads when a request arrives: the clock
(`Date.now()` and its `toLocaleTimeString()`), and the request itself. -/
structure TrapRequest where
  now : Nat
  localeTime : String
  method : String
  headers : List (String × String)
  body : Json
  deriving Repr

/-- The entry `{ id, timestamp, method, headers, body }` built by the trap. -/
def TrapRequest.entry (req : TrapRequest) : CapturedRequest :=
  { id := toString req.now, timestamp := req.localeTime, method := req.method,
    headers := req.headers, body := req.body }

/-- The state change of `app.all('/webhook-proxy')`: `unshift` the entry, then
`pop` when the length is above 50. -/
def webhookProxy (capturedRequests : List CapturedRequest) (req : TrapRequest) :
    List CapturedRequest :=
  let unshifted := req.entry :: capturedRequests
  if unshifted.length > 50 then unshifted.dropLast else unshifted

/-- The capture buffer after a sequence of trap requests, oldest request first. -/
def captureAll (capturedRequests : List CapturedRequest) (reqs : List TrapRequest) :
    List CapturedRequest :=
  reqs.foldl webhookProxy capturedRequests

/-- The body of the reply of `app.get('/api/captured-requests')`. -/
def listCaptured (capturedRequests : List CapturedRequest) : List CapturedRequest :=
  capturedRequests

/-! ## The attack dispatcher (`runAttack`) -/

/-- The `data` of a `vulnerability` message. -/
structure Finding where
  type : String
  field : String
  status : Nat
  duration : Int
  payload : Json
  deriving Repr

/-- A message posted by the worker to its parent. -/
inductive Event where
  | info (message : String) : Event
  | vulnerability (data : Finding) : Event
  | progress (sent total : Nat) : Event
  | done (totalSent vulnerabilitiesFound : Nat) : Event
  deriving Repr

/-- A request handed to the HTTP client. -/
structure HttpRequest where
  method : String
  url : String
  headers : List (String × String)
  data : Json
  deriving Repr

/-- What one `await axios(...)` gives: a response of any status (with the
elapsed time `Date.now() - start` measured around it), or a thrown network
error (connection refused, timeout, ...). -/
inductive Outcome where
  | response (status : Nat) (data : Json) (duration : Int) : Outcome
  | networkError : Outcome
  deriving Repr

/-- JavaScript `data.includes(payload)` on two strings. -/
def jsIncludes (data payload : String) : Bool :=
  decide (payload.data <:+: data.data)

/-- The reflected-payload test: `typeof res.data === 'string' &&
typeof mutation.payload === 'string' && res.data.includes(mutation.payload)`. -/
def reflects (data payload : Json) : Bool :=
  match data, payload with
  | .str d, .str p => jsIncludes d p
  | _, _ => false

/-- The heuristic analysis of `runAttack`: the flag `isSuspicious` after the
three `if` statements. -/
def isSuspicious (status : Nat) (duration : Int) (data payload : Json) : Bool :=
  let s0 := false
  let s1 := if status ≥ 500 then true else s0
  let s2 := if duration > 2000 then true else s1
  if reflects data payload then true else s2

/-- The worker's variables while `runAttack` runs: the two counters, the
messages posted so far and the requests issued so far (oldest first). -/
structure WorkerState where
  requestsSent : Nat
  vulnerabilitiesFound : Nat
  posted : List Event
  issued : List HttpRequest
  deriving Repr

/-- The request built for one candidate. -/
def requestFor (originalReq : CapturedRequest) (targetUrl : String) (mutation : Mutation) :
    HttpRequest :=
  { method := originalReq.method, url := targetUrl,
    headers := setOwn "Content-Type" "application/json"
      (setOwn "X-Mutation-Type" mutation.mutationType originalReq.headers),
    data := mutation.body }

/-- One iteration of the `for (const mutation of mutations)` loop. -/
def dispatchOne (originalReq : CapturedRequest) (targetUrl : String) (total : Nat)
    (st : WorkerState) (mutation : Mutation) (outcome : Outcome) : WorkerState :=
  let st := { st with issued := st.issued ++ [requestFor originalReq targetUrl mutation] }
  match outcome with
  | .networkError => st
  | .response status data duration =>
    let st := { st with requestsSent := st.requestsSent + 1 }
    let st :=
      if isSuspicious status duration data mutation.payload then
        { st with
          vulnerabilitiesFound := st.vulnerabilitiesFound + 1
          posted := st.posted ++ [.vulnerability
            { type := mutation.mutationType, field := mutation.field, status := status,
              duration := duration, payload := mutation.payload }] }
      else st
    if st.requestsSent % 10 = 0 then
      { st with posted := st.posted ++ [.progress st.requestsSent total] }
    else st

/-- The loop of `runAttack` over the candidates; `net i` is the outcome of the
request issued for the candidate at position `i`. -/
def dispatchAll (originalReq : CapturedRequest) (targetUrl : String) (total : Nat)
    (net : Nat → Outcome) : Nat → List Mutation → WorkerState → WorkerState
  | _, [], st => st
  | i, mutation :: rest, st =>
    dispatchAll originalReq targetUrl total net (i + 1) rest
      (dispatchOne originalReq targetUrl total st mutation (net i))

/-- The text of the `info` message. -/
def infoMessage (n : Nat) : String :=
  "Generated " ++ toString n ++ " distinct mutation payloads."

/-- The worker at start: `requestsSent = 0`, `vulnerabilitiesFound = 0`. -/
def WorkerState.initial : WorkerState :=
  { requestsSent := 0, vulnerabilitiesFound := 0, posted := [], issued := [] }

/-- `runAttack()`: the state of the worker when the run ends.  When
`generateMutations` throws, the run ends there with nothing posted. -/
def runAttack (originalReq : CapturedRequest) (targetUrl : String) (net : Nat → Outcome) :
    WorkerState :=
  match generateMutations originalReq.body originalReq.body "" with
  | .error _ => WorkerState.initial
  | .ok mutations =>
    let st := { WorkerState.initial with posted := [.info (infoMessage mutations.length)] }
    let st := dispatchAll originalReq targetUrl mutations.length net 0 mutations st
    { st with posted := st.posted ++ [.done st.requestsSent st.vulnerabilitiesFound] }

/-- The `vulnerability` messages of a trace, in order. -/
def vulnerabilityData : List Event → List Finding
  | [] => []
  | .vulnerability data :: rest => data :: vulnerabilityData rest
  | _ :: rest => vulnerabilityData rest

/-! ## Job submission (`app.post('/api/mutate-attack')`) -/

/-- One record of `mutationJobs`. -/
structure Job where
  status : String
  logs : List String
  vulnerabilities : List Finding
  progress : Option Event
  summary : Option Event
  deriving Repr

/-- The server's in-memory state. -/
structure Server where
  capturedRequests : List CapturedRequest
  mutationJobs : List (String × Job)
  deriving Repr

/-- JavaScript `!v` for a field of a parsed JSON body; `none` is a missing
field (`undefined`). -/
def falsy : Option Json → Bool
  | none => true
  | some .null => true
  | some (.bool b) => !b
  | some (.num n) => n == 0
  | some (.str s) => s == ""
  | some _ => false

/-- The test `r.id === requestId` of the lookup. -/
def idMatches (requestId : Option Json) (r : CapturedRequest) : Bool :=
  match requestId with
  | some (.str s) => r.id == s
  | _ => false

/-- The reply of the submit endpoint. -/
inductive SubmitReply where
  | notFound : SubmitReply
  | badRequest : SubmitReply
  | started (jobId : String) : SubmitReply
  deriving DecidableEq, Repr

/-- The record stored when a job starts. -/
def Job.fresh : Job :=
  { status := "running", logs := [], vulnerabilities := [], progress := none, summary := none }

/-- The handler `app.post('/api/mutate-attack')`: the server state after it
and its reply; `now` is `Date.now()` read for the job id. -/
def mutateAttack (srv : Server) (requestId targetUrl : Option Json) (now : Nat) :
    Server × SubmitReply :=
  match srv.capturedRequests.find? (idMatches requestId) with
  | none => (srv, .notFound)
  | some _ =>
    if falsy targetUrl then (srv, .badRequest)
    else
      let jobId := toString now
      ({ srv with mutationJobs := setOwn jobId Job.fresh srv.mutationJobs }, .started jobId)

/-- The finding that the dispatcher reports for a candidate, given the outcome
of its request: none when the request failed or the response is not flagged. -/
def findingFor (mutation : Mutation) : Outcome → Option Finding
  | .networkError => none
  | .response status data duration =>
    if isSuspicious status duration data mutation.payload then
      some { type := mutation.mutationType, field := mutation.field, status := status,
             duration := duration, payload := mutation.payload }
    else none

/-- The findings expected from a run over `mutations`, the first of which is at
position `i`: one per flagged candidate, in candidate order. -/
def expectedFindings (net : Nat → Outcome) (i : Nat) (mutations : List Mutation) : List Finding :=
  (mutations.enumFrom i).filterMap (fun im => findingFor im.2 (net im.1))

/-- The body `{"user": {"name": "a"}}`. -/
def userBody : Json := .obj [("user", .obj [("name", .str "a")])]

/-- A target that answers every request with status 500 after 5 ms. -/
def always500 : Nat → Outcome := fun _ => .response 500 (.str "Internal Server Error") 5

/-- Every request gets a response and its status is at least 500. -/
def AllServerErrors (net : Nat → Outcome) : Prop :=
  ∀ i, ∃ status data duration, net i = .response status data duration ∧ 500 ≤ status

/-- The body `{"a.b": 1}`. -/
def dottedKeyBody : Json := .obj [("a.b", .num 1)]

/-- The body `{"a.b": 1, "a": {"b": 2}}`. -/
def shadowedKeyBody : Json := .obj [("a.b", .num 1), ("a", .obj [("b", .num 2)])]

/-- The body `{"": {"a": 1}}`. -/
def emptyKeyBody : Json := .obj [("", .obj [("a", .num 1)])]

/-! ## Locations, dotted paths and the candidates of the specification -/

/-- The number that a list of decimal digit characters denotes. -/
def digitsValue (cs : List Char) : Nat :=
  cs.foldl (fun a c => 10 * a + (c.toNat - 48)) 0

/-- Own child of a value under a property name: the property of an object, the
element of an array at that index. -/
def childAt (cur : Json) (key : String) : Option Json :=
  match cur with
  | .obj props => props.lookup key
  | .arr items =>
    match arrayIndex key items.length with
    | some i => items[i]?
    | none => none
  | _ => none

/-- The value `cur` with its own child under `key` replaced by `child`, every
other child kept as it is, in place. -/
def putChild (cur : Json) (key : String) (child : Json) : Json :=
  match cur with
  | .obj props => .obj (setOwn key child props)
  | .arr items =>
    match arrayIndex key items.length with
    | some i => .arr (items.set i child)
    | none => cur
  | prim => prim

/-- The subtree found by following a key sequence from `cur`. -/
def subtreeAt : Json → List String → Option Json
  | cur, [] => some cur
  | cur, key :: keys =>
    match childAt cur key with
    | none => none
    | some child => subtreeAt child keys

/-- The tree `cur` with the value at the location `keys` replaced by `value`
and every other part unchanged (`cur` itself when there is no such location). -/
def replaceAt : Json → List String → Json → Json
  | _, [], value => value
  | cur, key :: keys, value =>
    match childAt cur key with
    | none => cur
    | some child => putChild cur key (replaceAt child keys value)

/-- The dotted field path of a key sequence. -/
def pathOf (keys : List String) : String := ".".intercalate keys

/-- A key that the dotted path notation can carry: not empty, no dot in it. -/
def goodKey (key : String) : Bool := key != "" && !key.data.contains '.'

mutual
/-- The key sequences of the recursive walk of a body, in the order of the
walk: below each child first, then the child itself. -/
def walk : Json → List (List String)
  | .obj props => walkProps props
  | .arr items => walkItems 0 items
  | _ => []
/-- The walk over the properties of an object. -/
def walkProps : List (String × Json) → List (List String)
  | [] => []
  | (key, value) :: rest => (walk value).map (key :: ·) ++ [[key]] ++ walkProps rest
/-- The walk over the elements of an array, from index `i` on. -/
def walkItems (i : Nat) : List Json → List (List String)
  | [] => []
  | value :: rest => (walk value).map (toString i :: ·) ++ [[toString i]] ++ walkItems (i + 1) rest
end

/-- The candidates for one field: one per catalog vector, each with the root
body in which the value at that field is replaced by the payload. -/
def fieldCandidates (root : Json) (keys : List String) : List Mutation :=
  ATTACK_VECTORS.map (fun vector =>
    { mutationType := vector.type, field := pathOf keys, payload := vector.payload,
      body := replaceAt root keys vector.payload })

/-- The candidate list that the specification describes for a body. -/
def specCandidates (root : Json) : List Mutation :=
  (walk root).flatMap (fieldCandidates root)

mutual
/-- Every object of the tree has pairwise different keys, each of them a good
key. -/
def wellKeyed : Json → Bool
  | .obj props => decide ((props.map Prod.fst).Nodup) && wellKeyedProps props
  | .arr items => wellKeyedItems items
  | _ => true
/-- The condition `wellKeyed` on the properties of an object. -/
def wellKeyedProps : List (String × Json) → Bool
  | [] => true
  | (key, value) :: rest => goodKey key && wellKeyed value && wellKeyedProps rest
/-- The condition `wellKeyed` on the elements of an array. -/
def wellKeyedItems : List Json → Bool
  | [] => true
  | value :: rest => wellKeyed value && wellKeyedItems rest
end

/-! ## The job event sink and the status endpoint (`server.js`) -/

/-- The `worker.on('message')` callback of a mutation job, on the job record:
`done` sets the status and the summary, `vulnerability` pushes its data, `info`
and `progress` overwrite the progress snapshot. -/
def applyEvent (job : Job) (msg : Event) : Job :=
  match msg with
  | .done _ _ => { job with status := "done", summary := some msg }
  | .vulnerability data => { job with vulnerabilities := job.vulnerabilities ++ [data] }
  | .info _ => { job with progress := some msg }
  | .progress _ _ => { job with progress := some msg }

/-- The job record after a sequence of messages, oldest first. -/
def applyEvents (job : Job) (msgs : List Event) : Job :=
  msgs.foldl applyEvent job

/-- The `worker.on('message')` callback of the job submitted at clock value
`now` (its `jobId` is the decimal string of `now`, which names no inherited
property): nothing happens when `mutationJobs[jobId]` is not there. -/
def onWorkerMessage (srv : Server) (now : Nat) (msg : Event) : Server :=
  match srv.mutationJobs.lookup (toString now) with
  | none => srv
  | some job =>
    { srv with mutationJobs := setOwn (toString now) (applyEvent job msg) srv.mutationJobs }

/-- The reply of the status endpoint: 404, or 200 with the job record, or 200
with whatever `res.json` makes of a value inherited from `Object.prototype`
(nothing for a function, `{}` for `__proto__`). -/
inductive StatusReply where
  | notFound : StatusReply
  | job (record : Job) : StatusReply
  | inherited (name : String) : StatusReply
  deriving Repr

/-- The handler `app.get('/api/mutation-status/:jobId')`: the read
`mutationJobs[req.params.jobId]` on the plain object `mutationJobs` finds an
own record, or else a property inherited from `Object.prototype` (all of them
truthy), or else `undefined`. -/
def mutationStatus (srv : Server) (jobId : String) : StatusReply :=
  match srv.mutationJobs.lookup jobId with
  | some record => .job record
  | none => if jobId ∈ objectPrototypeNames then .inherited jobId else .notFound

/-- A server with one captured request of id `1700000000000` and no job. -/
def oneCaptureServer : Server :=
  { capturedRequests := [⟨"1700000000000", "10:00:00", "POST", [], userBody⟩],
    mutationJobs := [] }

/-- The `sent` and `total` of the `progress` messages of a trace, in order. -/
def progressData : List Event → List (Nat × Nat)
  | [] => []
  | .progress sent total :: rest => (sent, total) :: progressData rest
  | _ :: rest => progressData rest

/-- The `done` messages of a trace, in order. -/
def doneData : List Event → List (Nat × Nat)
  | [] => []
  | .done totalSent vulnerabilitiesFound :: rest =>
    (totalSent, vulnerabilitiesFound) :: doneData rest
  | _ :: rest => doneData rest

/-- The transport outcome at a position is a thrown network error. -/
def Outcome.failed : Outcome → Bool
  | .networkError => true
  | .response _ _ _ => false

/-- The body `{"user": {"first.name": "a"}}`. -/
def nestedDottedKeyBody : Json := .obj [("user", .obj [("first.name", .str "a")])]

/-- A transport that fails on every even position and answers 200 on the odd
ones. -/
def flakyNet : Nat → Outcome :=
  fun i => if i % 2 = 0 then .networkError else .response 200 (.str "ok") 5

/-! ## The event sink as the code dispatches it, on the `status` tag -/

/-- The `status` tag of a message posted by `runAttack`. -/
def Event.status : Event → String
  | .info _ => "info"
  | .vulnerability _ => "vulnerability"
  | .progress _ _ => "progress"
  | .done _ _ => "done"

/-- A message that reaches `worker.on('message')`: one of the four posted by
`runAttack`, or a message whose `status` tag is none of theirs. -/
inductive Message where
  | event (e : Event) : Message
  | other (status : String)
      (hother : status ≠ "done" ∧ status ≠ "vulnerability" ∧ status ≠ "info"
        ∧ status ≠ "progress") : Message

/-- The field `msg.status`. -/
def Message.status : Message → String
  | .event e => e.status
  | .other status _ => status

/-- The field `msg.data` of a `vulnerability` message. -/
def Message.data : Message → List Finding
  | .event (.vulnerability data) => [data]
  | _ => []

/-- The message itself, as stored in `summary` and `progress`. -/
def Message.whole : Message → Option Event
  | .event e => some e
  | .other _ _ => none

/-- The body of the `worker.on('message')` callback of a mutation job, on the
job record: the `if` chain on `msg.status`. -/
def applyMessage (job : Job) (msg : Message) : Job :=
  if msg.status = "done" then
    { job with status := "done", summary := msg.whole }
  else if msg.status = "vulnerability" then
    { job with vulnerabilities := job.vulnerabilities ++ msg.data }
  else if msg.status = "info" ∨ msg.status = "progress" then
    { job with progress := msg.whole }
  else job

/-- The number of positions `i, ..., i + n - 1` at which the transport gives a
response. -/
def responsesIn (net : Nat → Outcome) (i n : Nat) : Nat :=
  (List.range' i n).countP (fun j => !(net j).failed)

/-- The empty worker state with the `info` message posted, as the loop of
`runAttack` finds it. -/
def WorkerState.afterInfo (total : Nat) : WorkerState :=
  { WorkerState.initial with posted := [.info (infoMessage total)] }

mutual
/-- The field paths of the recursive walk below `path`, in depth-first
post-order: for each child key in enumeration order, the fields strictly below
the child, then the child's own field. -/
def walkFields : Json → String → List String
  | .obj props, path => walkFieldsProps path props
  | .arr items, path => walkFieldsItems path 0 items
  | _, _ => []
/-- The post-order walk over the properties of an object. -/
def walkFieldsProps (path : String) : List (String × Json) → List String
  | [] => []
  | (key, value) :: rest =>
    walkFields value (joinPath path key) ++ [joinPath path key] ++ walkFieldsProps path rest
/-- The post-order walk over the elements of an array, from index `i` on. -/
def walkFieldsItems (path : String) (i : Nat) : List Json → List String
  | [] => []
  | value :: rest =>
    walkFields value (joinPath path (toString i)) ++ [joinPath path (toString i)]
      ++ walkFieldsItems path (i + 1) rest
end

/-- The field, type and payload of a candidate. -/
def Mutation.label (m : Mutation) : String × String × Json :=
  (m.field, m.mutationType, m.payload)

/-- The labels of the candidates of one field, in catalog order. -/
def fieldLabels (field : String) : List (String × String × Json) :=
  ATTACK_VECTORS.map (fun vector => (field, vector.type, vector.payload))

/-! ## Capture ids, job ids, the auto-pilot endpoint and replay (`server.js`) -/

/-- Two requests that reach the trap endpoint within the same millisecond. -/
def sameMsRequests : List TrapRequest :=
  [⟨1700000000000, "10:00:00", "POST", [], .obj [("n", .num 1)]⟩,
   ⟨1700000000000, "10:00:00", "POST", [], .obj [("n", .num 2)]⟩]

/-- The lookup `capturedRequests.find(r => r.id === requestId)`. -/
def findCaptured (capturedRequests : List CapturedRequest) (requestId : Option Json) :
    Option CapturedRequest :=
  capturedRequests.find? (idMatches requestId)

/-- The handler `app.post('/api/auto-pilot')`: the server state after it and
its reply; `now` is `Date.now()` read for the job id.  The record is stored in
the same `mutationJobs`. -/
def autoPilot (srv : Server) (targetUrl : Option Json) (now : Nat) : Server × SubmitReply :=
  if falsy targetUrl then (srv, .badRequest)
  else
    let jobId := toString now
    ({ srv with mutationJobs := setOwn jobId Job.fresh srv.mutationJobs }, .started jobId)

/-- A finding as the first run of the collision scenario reports it. -/
def sampleFinding : Finding :=
  { type := "SQLi", field := "user", status := 500, duration := 12, payload := .str "' OR '1'='1" }

/-- What the forwarding request of the replay endpoint comes back with: an
HTTP response of some status, or no response (connection refused, timeout). -/
inductive Forwarded where
  | answered (status : Nat) : Forwarded
  | noResponse : Forwarded
  deriving DecidableEq, Repr

/-- The default `validateStatus` of the HTTP client, which the replay request
does not override: the promise resolves for a status from 200 to 299 and is
rejected for any other status. -/
def defaultValidateStatus (status : Nat) : Bool :=
  decide (200 ≤ status) && decide (status < 300)

/-- The reply of the replay endpoint: 404, 400, 200 with the target's status,
or 500 `Replay Failed`. -/
inductive ReplayReply where
  | notFound : ReplayReply
  | badRequest : ReplayReply
  | replayed (originalId : String) (targetStatus : Nat) : ReplayReply
  | replayFailed : ReplayReply
  deriving DecidableEq, Repr

/-- The handler `app.post('/api/replay')`; `target` is what the forwarded
request comes back with. -/
def replay (srv : Server) (requestId targetUrl : Option Json) (target : Forwarded) :
    ReplayReply :=
  match srv.capturedRequests.find? (idMatches requestId) with
  | none => .notFound
  | some originalReq =>
    if falsy targetUrl then .badRequest
    else
      match target with
      | .noResponse => .replayFailed
      | .answered status =>
        if defaultValidateStatus status then .replayed originalReq.id status
        else .replayFailed

/-! ## The auto-pilot worker (`auto-pilot-worker.js`) -/

/-- The table `PAYLOADS`. -/
def PAYLOADS : List (String × List String) :=
  [ ("PHP",
      ["/index.php?arg=1; system('whoami')",
       "/index.php?cmd=cat /etc/passwd",
       "/admin.php?debug=true",
       "/?p=phpinfo()"]),
    ("Node.js",
      ["/?eval=require('child_process').exec('whoami')",
       "/?q=res.end(require('fs').readFileSync('/etc/passwd'))",
       "/undefined"]),
    ("SQL",
      ["' OR '1'='1",
       "'; DROP TABLE users; --",
       "' UNION SELECT NULL, version() --"]),
    ("General",
      ["/..%2f..%2f..%2fetc%2fpasswd",
       "/.git/config",
       "/.env"]) ]

/-- The table `TECH_SIGNATURES`. -/
def TECH_SIGNATURES : List (String × List String) :=
  [ ("PHP", ["PHPSESSID", "X-Powered-By: PHP", "Laravel", "Symfony"]),
    ("Node.js", ["Express", "connect.sid", "sails.sid", "Nest"]),
    ("Python", ["gunicorn", "Werkzeug", "csrftoken"]),
    ("ASP.NET", ["ASP.NET_SessionId", "X-AspNet-Version"]) ]

/-- JavaScript `sig.toLowerCase()` on a signature (all signatures are ASCII). -/
def lowerCase (s : String) : String := String.mk (s.data.map Char.toLower)

/-- The read `PAYLOADS[tech]`; `none` is `undefined`. -/
def payloadsOf (tech : String) : Option (List String) := PAYLOADS.lookup tech

/-- The fingerprinting loop: `headers` is the lower-cased JSON text of the
response headers; the result is the first technology one of whose signatures,
lower-cased, occurs in it, and `General` when there is none. -/
def detectTech (headers : String) : String :=
  match TECH_SIGNATURES.find?
      (fun entry => entry.2.any (fun sig => jsIncludes headers (lowerCase sig))) with
  | some entry => entry.1
  | none => "General"

/-- The attack list built for the detected technology. -/
def attackList (detectedTech : String) : List String :=
  let attackList := (payloadsOf "General").getD [] ++ (payloadsOf "SQL").getD []
  match payloadsOf detectedTech with
  | some own => attackList ++ own
  | none => attackList ++ (payloadsOf "PHP").getD [] ++ (payloadsOf "Node.js").getD []

/-- Every payload of every category of `PAYLOADS`. -/
def allPayloads : List String := PAYLOADS.flatMap (fun entry => entry.2)

/-! ## The static code scan (`app.post('/api/scan-code')`)

The six patterns are regular expressions of a small fragment: character
classes, sequence, alternation and the greedy star.  Matching is the
backtracking matching of JavaScript, and a regular expression with the `g`
flag keeps its `lastIndex` from one call of `test` to the next.  Positions
count characters, which are the UTF-16 code units of the text as long as the
text stays within the Basic Multilingual Plane. -/

/-- A regular expression of the fragment used by the scan. -/
inductive Regex where
  | cls (accepts : Char → Bool) : Regex
  | seq (first second : Regex) : Regex
  | alt (first second : Regex) : Regex
  | star (inner : Regex) : Regex
  | empty : Regex

/-- The greedy loop of `inner*`: `step` matches `inner` once; an iteration
that consumes nothing is rejected; `fuel` bounds the number of iterations and
is never exhausted when it exceeds the length of the input. -/
def starLoop (step : List Char → (List Char → Option (List Char)) → Option (List Char)) :
    Nat → List Char → (List Char → Option (List Char)) → Option (List Char)
  | 0, input, cont => cont input
  | fuel + 1, input, cont =>
    match step input
        (fun rest => if rest.length < input.length then starLoop step fuel rest cont
          else none) with
    | some rest => some rest
    | none => cont input

/-- Backtracking match of a regular expression at the start of `input`: the
continuation gets the input left after the match; the result is that of the
first alternative, in priority order, for which the continuation succeeds. -/
def Regex.run : Regex → List Char → (List Char → Option (List Char)) → Option (List Char)
  | .cls _, [], _ => none
  | .cls accepts, c :: rest, cont => if accepts c then cont rest else none
  | .seq first second, input, cont =>
    first.run input (fun rest => second.run rest cont)
  | .alt first second, input, cont =>
    match first.run input cont with
    | some rest => some rest
    | none => second.run input cont
  | .star inner, input, cont =>
    starLoop (fun input' cont' => inner.run input' cont') (input.length + 1) input
      cont
  | .empty, input, cont => cont input

/-- The search of `exec`: the first position from `pos` on at which the
regular expression matches; the result is the end index of that match. -/
def Regex.search (re : Regex) : Nat → List Char → Option Nat
  | pos, [] =>
    match re.run [] (fun rest => some rest) with
    | some _ => some pos
    | none => none
  | pos, c :: tail =>
    match re.run (c :: tail) (fun rest => some rest) with
    | some rest => some (pos + ((c :: tail).length - rest.length))
    | none => re.search (pos + 1) tail

/-- The characters of a literal text, matched exactly. -/
def Regex.text (s : String) : Regex :=
  s.data.foldr (fun c re => .seq (.cls (fun d => d == c)) re) .empty

/-- The characters of a literal text, matched without regard to case (the `i`
flag; the letters of the patterns are ASCII). -/
def Regex.textNoCase (s : String) : Regex :=
  s.data.foldr (fun c re => .seq (.cls (fun d => d.toLower == c.toLower)) re) .empty

/-- An alternation of regular expressions, first alternative first. -/
def Regex.oneOf : List Regex → Regex
  | [] => .cls (fun _ => false)
  | [re] => re
  | re :: rest => .alt re (Regex.oneOf rest)

/-- The class `\s`, which is also what `trim` removes: white space and line
terminators. -/
def isSpace (c : Char) : Bool :=
  c.toNat == 9 || c.toNat == 10 || c.toNat == 11 || c.toNat == 12 || c.toNat == 13
    || c.toNat == 32 || c.toNat == 160 || c.toNat == 5760
    || (decide (8192 ≤ c.toNat) && decide (c.toNat ≤ 8202))
    || c.toNat == 8232 || c.toNat == 8233 || c.toNat == 8239 || c.toNat == 8287
    || c.toNat == 12288 || c.toNat == 65279

/-- The class `.`: any character but a line terminator. -/
def isDot (c : Char) : Bool :=
  !(c.toNat == 10 || c.toNat == 13 || c.toNat == 8232 || c.toNat == 8233)

/-- The class of the two quote characters, apostrophe and double quote. -/
def isQuote (c : Char) : Bool := c.toNat == 39 || c.toNat == 34

/-- The sub-expression `\s*`. -/
def Regex.spaces : Regex := .star (.cls isSpace)

/-- The sub-expression `\s*[:=]\s*['"][^'"]+['"]` of the two hard-coded-secret
patterns. -/
def Regex.quotedAssignment : Regex :=
  .seq Regex.spaces (.seq (.cls (fun c => c == ':' || c == '='))
    (.seq Regex.spaces (.seq (.cls isQuote)
      (.seq (.cls (fun c => !isQuote c)) (.seq (.star (.cls (fun c => !isQuote c)))
        (.cls isQuote))))))

/-- One entry of `patterns`; `global` is the `g` flag of its regular
expression. -/
structure Pattern where
  name : String
  regex : Regex
  global : Bool
  level : String

/-- Its regular expression is `/eval\s*\(/g`. -/
def dangerousEval : Pattern :=
  { name := "Dangerous Eval",
    regex := .seq (Regex.text "eval") (.seq Regex.spaces (Regex.text "(")),
    global := true, level := "Critical" }

/-- Its regular expression is `/(exec|spawn|system|shell_exec)\s*\(/g`. -/
def systemCmdExecution : Pattern :=
  { name := "System Cmd Execution",
    regex := .seq (Regex.oneOf [Regex.text "exec", Regex.text "spawn", Regex.text "system",
        Regex.text "shell_exec"]) (.seq Regex.spaces (Regex.text "(")),
    global := true, level := "Critical" }

/-- Its regular expression is
`/(password|passwd|pwd|secret)\s*[:=]\s*['"][^'"]+['"]/i`. -/
def hardcodedPassword : Pattern :=
  { name := "Hardcoded Password",
    regex := .seq (Regex.oneOf [Regex.textNoCase "password", Regex.textNoCase "passwd",
        Regex.textNoCase "pwd", Regex.textNoCase "secret"]) Regex.quotedAssignment,
    global := false, level := "High" }

/-- Its regular expression is `/(api_key|apikey|token)\s*[:=]\s*['"][^'"]+['"]/i`. -/
def hardcodedApiKey : Pattern :=
  { name := "Hardcoded API Key",
    regex := .seq (Regex.oneOf [Regex.textNoCase "api_key", Regex.textNoCase "apikey",
        Regex.textNoCase "token"]) Regex.quotedAssignment,
    global := false, level := "High" }

/-- Its regular expression is `/\.innerHTML\s*=/g`. -/
def innerHtmlInjection : Pattern :=
  { name := "Inner HTML Injection",
    regex := .seq (Regex.text ".innerHTML") (.seq Regex.spaces (Regex.text "=")),
    global := true, level := "Medium" }

/-- Its regular expression is
`/["']\s*\+\s*.*\s*\+\s*["']\s*(SELECT|INSERT|UPDATE|DELETE)/i`. -/
def sqlInjectionRisk : Pattern :=
  { name := "SQL Injection Risk",
    regex := .seq (.cls isQuote) (.seq Regex.spaces (.seq (Regex.text "+") (.seq Regex.spaces
      (.seq (.star (.cls isDot)) (.seq Regex.spaces (.seq (Regex.text "+") (.seq Regex.spaces
        (.seq (.cls isQuote) (.seq Regex.spaces
          (Regex.oneOf [Regex.textNoCase "SELECT", Regex.textNoCase "INSERT",
            Regex.textNoCase "UPDATE", Regex.textNoCase "DELETE"])))))))))),
    global := false, level := "Critical" }

/-- The table `patterns` of the handler, created anew for each request. -/
def patterns : List Pattern :=
  [dangerousEval, systemCmdExecution, hardcodedPassword, hardcodedApiKey, innerHtmlInjection,
   sqlInjectionRisk]

/-- The call `pat.regex.test(line)` when the `lastIndex` of the regular
expression is `lastIndex`: the result and the `lastIndex` afterwards.  With the
`g` flag the search starts at `lastIndex`, which is set to the end of the match
or reset to 0 when there is none; without it the search starts at 0 and
`lastIndex` is left alone. -/
def Pattern.test (pat : Pattern) (lastIndex : Nat) (line : List Char) : Bool × Nat :=
  if pat.global then
    if lastIndex > line.length then (false, 0)
    else
      match pat.regex.search lastIndex (line.drop lastIndex) with
      | some stop => (true, stop)
      | none => (false, 0)
  else ((pat.regex.search 0 line).isSome, lastIndex)

/-- The pattern's regular expression matches somewhere in the line. -/
def Pattern.matchesLine (pat : Pattern) (line : String) : Bool :=
  (pat.regex.search 0 line.data).isSome

/-- One element of `vulnerabilities` in the reply of the scan. -/
structure ScanReport where
  line : Nat
  type : String
  severity : String
  code : String
  deriving DecidableEq, Repr

/-- JavaScript `line.trim()`. -/
def jsTrim (line : List Char) : String :=
  String.mk ((line.dropWhile isSpace).reverse.dropWhile isSpace).reverse

/-- The inner `patterns.forEach` for the line at `index`: the reports pushed
and the `lastIndex` of each pattern afterwards. -/
def scanPatterns (index : Nat) (line : List Char) :
    List Pattern → List Nat → List ScanReport × List Nat
  | pat :: pats, lastIndex :: lastIndexes =>
    let tested := pat.test lastIndex line
    let others := scanPatterns index line pats lastIndexes
    ((if tested.1 then
        [{ line := index + 1, type := pat.name, severity := pat.level, code := jsTrim line }]
      else []) ++ others.1,
     tested.2 :: others.2)
  | _, _ => ([], [])

/-- The outer `lines.forEach`, from the line at `index` on. -/
def scanLines (pats : List Pattern) : Nat → List (List Char) → List Nat → List ScanReport
  | _, [], _ => []
  | index, line :: rest, lastIndexes =>
    let scanned := scanPatterns index line pats lastIndexes
    scanned.1 ++ scanLines pats (index + 1) rest scanned.2

/-- The `vulnerabilities` computed by the handler for the content of the
uploaded file. -/
def scanCode (content : String) : List ScanReport :=
  scanLines patterns 0 (content.data.splitOn '\n') (patterns.map (fun _ => 0))

/-! ## Object identity: the generator on a heap

The embedding above treats a body as a value.  To speak about which objects two
values share, the same code is embedded once more with explicit references: an
object or array lives in a heap and is denoted by its address; `clone`
allocates new objects, `setByPath` stores the payload it is given, by
reference when the payload is an object. -/

/-- A JavaScript value with identity: a primitive, or the address of an object
or array of the heap. -/
inductive Ref where
  | null : Ref
  | bool (b : Bool) : Ref
  | num (n : Int) : Ref
  | str (s : String) : Ref
  | object (address : Nat) : Ref
  deriving DecidableEq, Repr

/-- An object of the heap: an array or a plain object, with its properties in
enumeration order (for an array: the indices). -/
structure HeapObject where
  isArray : Bool
  props : List (String × Ref)
  deriving DecidableEq, Repr

/-- The heap: the objects allocated so far; the address of an object is its
position. -/
abbrev Heap := List HeapObject

mutual
/-- Building a JSON tree in the heap (`JSON.parse`, an object literal): every
object and array of the tree becomes a new object of the heap. -/
def storeJson : Json → Heap → Heap × Ref
  | .null, heap => (heap, .null)
  | .bool b, heap => (heap, .bool b)
  | .num n, heap => (heap, .num n)
  | .str s, heap => (heap, .str s)
  | .arr items, heap =>
    match storeItems items 0 heap with
    | (heap', stored) => (heap' ++ [{ isArray := true, props := stored }], .object heap'.length)
  | .obj props, heap =>
    match storeProps props heap with
    | (heap', stored) => (heap' ++ [{ isArray := false, props := stored }], .object heap'.length)
/-- Building the properties of an object. -/
def storeProps : List (String × Json) → Heap → Heap × List (String × Ref)
  | [], heap => (heap, [])
  | (key, value) :: rest, heap =>
    match storeJson value heap with
    | (heap', first) =>
      match storeProps rest heap' with
      | (heap'', others) => (heap'', (key, first) :: others)
/-- Building the elements of an array, from index `i` on. -/
def storeItems : List Json → Nat → Heap → Heap × List (String × Ref)
  | [], _, heap => (heap, [])
  | value :: rest, i, heap =>
    match storeJson value heap with
    | (heap', first) =>
      match storeItems rest (i + 1) heap' with
      | (heap'', others) => (heap'', (toString i, first) :: others)
end

/-- The JSON tree that a value denotes in a heap (`JSON.stringify`); `fuel`
bounds the nesting depth and is enough when it exceeds the number of objects of
the heap. -/
def fetchJson (heap : Heap) : Nat → Ref → Option Json
  | _, .null => some .null
  | _, .bool b => some (.bool b)
  | _, .num n => some (.num n)
  | _, .str s => some (.str s)
  | 0, .object _ => none
  | fuel + 1, .object address =>
    match heap[address]? with
    | none => none
    | some object =>
      match object.props.mapM
          (fun entry => (fetchJson heap fuel entry.2).map (fun value => (entry.1, value))) with
      | none => none
      | some props => some (if object.isArray then .arr (props.map Prod.snd) else .obj props)

/-- The helper `clone` on the heap: the tree of `value` is read and built anew. -/
def cloneOnHeap (heap : Heap) (value : Ref) : Except JsErr (Heap × Ref) :=
  match fetchJson heap (heap.length + 1) value with
  | none => .error .outsideModel
  | some tree => .ok (storeJson tree heap)

/-- Property read `cur[key]` on the heap; `none` is `undefined`. -/
def getPropOnHeap (heap : Heap) (cur : Ref) (key : String) : Except JsErr (Option Ref) :=
  match cur with
  | .null => .error .typeError
  | .object address =>
    match heap[address]? with
    | none => .error .outsideModel
    | some object =>
      match object.props.lookup key with
      | some value => .ok (some value)
      | none =>
        if object.isArray ∨ key ∈ objectPrototypeNames then .error .outsideModel else .ok none
  | _ => .error .outsideModel

/-- Property write `cur[key] = value` on the heap: the object at the address of
`cur` is changed in place (a write on a primitive is dropped, a write on
`null` throws). -/
def assignPropOnHeap (heap : Heap) (cur : Ref) (key : String) (value : Ref) :
    Except JsErr Heap :=
  match cur with
  | .null => .error .typeError
  | .object address =>
    match heap[address]? with
    | none => .error .outsideModel
    | some object =>
      if (object.props.lookup key).isNone ∧ (object.isArray ∨ key = "__proto__") then
        .error .outsideModel
      else .ok (heap.set address { object with props := setOwn key value object.props })
  | _ => .ok heap

/-- The loop of `setByPath` on the heap. -/
def setPartsOnHeap (heap : Heap) : Ref → List String → Ref → Except JsErr Heap
  | _, [], _ => .error .outsideModel
  | cur, [last], value => assignPropOnHeap heap cur last value
  | cur, part :: rest, value =>
    match getPropOnHeap heap cur part with
    | .error e => .error e
    | .ok none => .error .typeError
    | .ok (some child) => setPartsOnHeap heap child rest value

/-- `setByPath(obj, path, value)` on the heap. -/
def setByPathOnHeap (heap : Heap) (obj : Ref) (path : String) (value : Ref) :
    Except JsErr Heap :=
  setPartsOnHeap heap obj (splitPath path) value

/-- One element of the array returned by `generateMutations`, with the
payload and the body as references. -/
structure HeapMutation where
  mutationType : String
  field : String
  payload : Ref
  body : Ref
  deriving DecidableEq, Repr

/-- The module-level table `ATTACK_VECTORS` in the heap: the payload of each
entry is built once, in table order, when the module is loaded. -/
def loadCatalog : List AttackVector → Heap → Heap × List (String × Ref)
  | [], heap => (heap, [])
  | vector :: vectors, heap =>
    match storeJson vector.payload heap with
    | (heap', payload) =>
      match loadCatalog vectors heap' with
      | (heap'', others) => (heap'', (vector.type, payload) :: others)

/-- The body of `ATTACK_VECTORS.forEach` on the heap: for each vector the root
is cloned, the vector's own payload is stored at `newPath` of the clone, and
the candidate records that payload and the clone. -/
def mutateFieldOnHeap (root : Ref) (newPath : String) :
    List (String × Ref) → Heap → Except JsErr (Heap × List HeapMutation)
  | [], heap => .ok (heap, [])
  | vector :: vectors, heap =>
    match cloneOnHeap heap root with
    | .error e => .error e
    | .ok (cloneHeap, mutatedRoot) =>
      match setByPathOnHeap cloneHeap mutatedRoot newPath vector.2 with
      | .error e => .error e
      | .ok heap' =>
        match mutateFieldOnHeap root newPath vectors heap' with
        | .error e => .error e
        | .ok (heap'', more) =>
          .ok (heap'', { mutationType := vector.1, field := newPath, payload := vector.2,
                         body := mutatedRoot } :: more)

mutual
/-- The generator `generateMutations(obj, path)` on the heap.  The walk reads
the original body only, which no write of the generator reaches, so it follows
the JSON tree `obj` of that body; `root` is the reference
`workerData.originalReq.body` and `catalog` the loaded `ATTACK_VECTORS`. -/
def generateOnHeap (catalog : List (String × Ref)) (root : Ref) :
    Json → String → Heap → Except JsErr (Heap × List HeapMutation)
  | .obj props, path, heap => genPropsOnHeap catalog root path props heap
  | .arr items, path, heap => genItemsOnHeap catalog root path 0 items heap
  | _, _, heap => .ok (heap, [])
/-- The `for (const key in obj)` loop over the properties of an object. -/
def genPropsOnHeap (catalog : List (String × Ref)) (root : Ref) (path : String) :
    List (String × Json) → Heap → Except JsErr (Heap × List HeapMutation)
  | [], heap => .ok (heap, [])
  | (key, value) :: rest, heap =>
    match generateOnHeap catalog root value (joinPath path key) heap with
    | .error e => .error e
    | .ok (heap1, deeper) =>
      match mutateFieldOnHeap root (joinPath path key) catalog heap1 with
      | .error e => .error e
      | .ok (heap2, here) =>
        match genPropsOnHeap catalog root path rest heap2 with
        | .error e => .error e
        | .ok (heap3, more) => .ok (heap3, deeper ++ here ++ more)
/-- The `for (const key in obj)` loop over the elements of an array. -/
def genItemsOnHeap (catalog : List (String × Ref)) (root : Ref) (path : String) (i : Nat) :
    List Json → Heap → Except JsErr (Heap × List HeapMutation)
  | [], heap => .ok (heap, [])
  | value :: rest, heap =>
    match generateOnHeap catalog root value (joinPath path (toString i)) heap with
    | .error e => .error e
    | .ok (heap1, deeper) =>
      match mutateFieldOnHeap root (joinPath path (toString i)) catalog heap1 with
      | .error e => .error e
      | .ok (heap2, here) =>
        match genItemsOnHeap catalog root path (i + 1) rest heap2 with
        | .error e => .error e
        | .ok (heap3, more) => .ok (heap3, deeper ++ here ++ more)
end

/-- The worker from start to the end of `generateMutations` for a body: the
catalog is loaded, the body is placed in the heap, the generator runs.  The
result is the heap, the catalog, the reference of the body and the
candidates. -/
def generateWithIdentity (body : Json) :
    Except JsErr (Heap × List (String × Ref) × Ref × List HeapMutation) :=
  match loadCatalog ATTACK_VECTORS [] with
  | (heap0, catalog) =>
    match storeJson body heap0 with
    | (heap1, root) =>
      match generateOnHeap catalog root body "" heap1 with
      | .error e => .error e
      | .ok (heap, candidates) => .ok (heap, catalog, root, candidates)

/-- The body `{"a": 1, "b": 2}`. -/
def twoFieldBody : Json := .obj [("a", .num 1), ("b", .num 2)]

/-- What the worker has after `generateMutations` for the body
`{"a": 1, "b": 2}`: the heap, the catalog, the reference of the body and the
candidates (nothing if the generator threw). -/
def sharedRun : Option (Heap × List (String × Ref) × Ref × List HeapMutation) :=
  match generateWithIdentity twoFieldBody with
  | .ok result => some result
  | .error _ => none

/-- The heap of `sharedRun` after the in-place write
`candidates[3].body.a["$ne"] = 1`. -/
def sharedRunAfterWrite : Option Heap :=
  match sharedRun with
  | none => none
  | some (heap, _, _, candidates) =>
    match candidates[3]? with
    | none => none
    | some candidate =>
      match setByPathOnHeap heap candidate.body "a.$ne" (.num 1) with
      | .ok heap' => some heap'
      | .error _ => none

/-! ## The capture buffer: proofs -/

theorem webhookProxy_of_lt (buf : List CapturedRequest) (req : TrapRequest)
    (h : buf.length < 50) : webhookProxy buf req = req.entry :: buf := by
  simp only [webhookProxy, List.length_cons]
  rw [if_neg (by omega)]

theorem webhookProxy_of_eq (buf : List CapturedRequest) (req : TrapRequest)
    (h : buf.length = 50) : webhookProxy buf req = req.entry :: buf.dropLast := by
  simp only [webhookProxy, List.length_cons]
  rw [if_pos (by omega)]
  cases buf with
  | nil => simp at h
  | cons a t => rfl

theorem webhookProxy_eq_take (buf : List CapturedRequest) (req : TrapRequest)
    (h : buf.length ≤ 50) : webhookProxy buf req = (req.entry :: buf).take 50 := by
  rcases Nat.lt_or_eq_of_le h with h | h
  · rw [webhookProxy_of_lt buf req h, List.take_of_length_le (by simp; omega)]
  · rw [webhookProxy_of_eq buf req h, List.dropLast_eq_take, List.take_succ_cons, h]

theorem captureAll_eq_take (reqs : List TrapRequest) (buf : List CapturedRequest)
    (h : buf.length ≤ 50) :
    captureAll buf reqs = ((reqs.map TrapRequest.entry).reverse ++ buf).take 50 := by
  induction reqs generalizing buf with
  | nil => simp [captureAll, List.take_of_length_le h]
  | cons r rs ih =>
    have h1 : (webhookProxy buf r).length ≤ 50 := by
      rw [webhookProxy_eq_take buf r h]; simp
    have := ih (webhookProxy buf r) h1
    simp only [captureAll, List.foldl_cons] at this ⊢
    rw [this, webhookProxy_eq_take buf r h]
    simp only [List.map_cons, List.reverse_cons, List.append_assoc, List.singleton_append]
    generalize (List.map TrapRequest.entry rs).reverse = l
    rw [@List.take_append_eq_append_take _ l (List.take 50 (r.entry :: buf)) 50,
      @List.take_append_eq_append_take _ l (r.entry :: buf) 50]
    congr 1
    rw [List.take_take]
    congr 1
    omega

/-- C3. Starting from an empty capture buffer, after the trap endpoint has
handled any sequence of N requests, the list served by
`/api/captured-requests` is the reverse of the last min(N, 50) captured
entries (newest first) and its length is min(N, 50), hence exactly 50 as soon
as N > 50. -/
theorem capture_buffer_keeps_newest_fifty (reqs : List TrapRequest) :
    listCaptured (captureAll [] reqs)
        = ((reqs.drop (reqs.length - min reqs.length 50)).map TrapRequest.entry).reverse
      ∧ (listCaptured (captureAll [] reqs)).length = min reqs.length 50
      ∧ (50 < reqs.length → (listCaptured (captureAll [] reqs)).length = 50) := by
  have h := captureAll_eq_take reqs [] (by simp)
  simp only [List.append_nil] at h
  have hlen : (listCaptured (captureAll [] reqs)).length = min reqs.length 50 := by
    simp only [listCaptured, h, List.length_take, List.length_reverse, List.length_map]
    omega
  refine ⟨?_, hlen, fun hN => by rw [hlen]; omega⟩
  simp only [listCaptured, h, List.take_reverse, List.length_map, List.map_drop]
  congr 2
  omega

/-- C3, at an input: 51 requests captured at the clock values 0, ..., 50. -/
theorem capture_buffer_keeps_newest_fifty_witness :
    (listCaptured (captureAll []
      ((List.range 51).map (fun t => ⟨t, "10:00:00", "POST", [], .obj []⟩)))).length = 50 :=
  (capture_buffer_keeps_newest_fifty
    ((List.range 51).map (fun t => ⟨t, "10:00:00", "POST", [], .obj []⟩))).2.2 (by decide)
/-- C4. In every state of the capture buffer reachable from the empty buffer
the length is at most 50, and a capture from such a state puts the new entry at
the front: below 50 entries nothing is removed, at 50 entries exactly the last
(oldest) one is removed, and the entries kept stay in their order. -/
theorem capture_buffer_invariant (reqs : List TrapRequest) (req : TrapRequest) :
    (captureAll [] reqs).length ≤ 50
      ∧ webhookProxy (captureAll [] reqs) req
          = req.entry :: (if (captureAll [] reqs).length < 50 then captureAll [] reqs
                          else (captureAll [] reqs).dropLast)
      ∧ (webhookProxy (captureAll [] reqs) req).length ≤ 50 := by
  have hlen : (captureAll [] reqs).length ≤ 50 := by
    rw [captureAll_eq_take reqs [] (by simp)]; simp
  refine ⟨hlen, ?_, ?_⟩
  · rcases Nat.lt_or_eq_of_le hlen with h | h
    · rw [webhookProxy_of_lt _ _ h, if_pos h]
    · rw [webhookProxy_of_eq _ _ h, if_neg (by omega)]
  · rw [webhookProxy_eq_take _ _ hlen]; simp

/-! ## The suspicion heuristic: proofs -/

theorem reflects_eq_true_iff (data payload : Json) :
    reflects data payload = true
      ↔ ∃ d p, data = .str d ∧ payload = .str p ∧ p.data <:+: d.data := by
  cases data <;> cases payload <;> simp [reflects, jsIncludes]

theorem isSuspicious_eq (status : Nat) (duration : Int) (data payload : Json) :
    isSuspicious status duration data payload
      = (decide (500 ≤ status) || decide (2000 < duration) || reflects data payload) := by
  unfold isSuspicious
  by_cases h1 : 500 ≤ status <;> by_cases h2 : 2000 < duration <;>
    cases h3 : reflects data payload <;> simp [h1, h2]

/-- C5. The suspicion flag computed by the dispatcher is true exactly when the
status is at least 500, or the latency is above 2000 ms, or the response body
and the payload are both strings and the body contains the payload.  Status 503
is flagged whatever the rest, status 200 with latency 2500 is flagged whatever
the rest, and status 200 with latency 10 and body "ok" is not flagged for any
string payload that "ok" does not contain. -/
theorem suspicion_heuristic_iff :
    (∀ (status : Nat) (duration : Int) (data payload : Json),
        isSuspicious status duration data payload = true
          ↔ (500 ≤ status ∨ 2000 < duration
              ∨ ∃ d p, data = .str d ∧ payload = .str p ∧ p.data <:+: d.data))
      ∧ (∀ (duration : Int) (data payload : Json),
          isSuspicious 503 duration data payload = true)
      ∧ (∀ (data payload : Json), isSuspicious 200 2500 data payload = true)
      ∧ (∀ p : String, ¬ p.data <:+: "ok".data →
          isSuspicious 200 10 (.str "ok") (.str p) = false) := by
  have main : ∀ (status : Nat) (duration : Int) (data payload : Json),
      isSuspicious status duration data payload = true
        ↔ (500 ≤ status ∨ 2000 < duration
            ∨ ∃ d p, data = .str d ∧ payload = .str p ∧ p.data <:+: d.data) := by
    intro status duration data payload
    rw [isSuspicious_eq, Bool.or_eq_true, Bool.or_eq_true, decide_eq_true_iff,
      decide_eq_true_iff, reflects_eq_true_iff, or_assoc]
  refine ⟨main, ?_, ?_, ?_⟩
  · intro duration data payload
    exact (main _ _ _ _).2 (Or.inl (by decide))
  · intro data payload
    exact (main _ _ _ _).2 (Or.inr (Or.inl (by decide)))
  · intro p hp
    rw [Bool.eq_false_iff]
    intro h
    rcases (main _ _ _ _).1 h with h | h | ⟨d, q, hd, hq, hin⟩
    · exact absurd h (by decide)
    · exact absurd h (by decide)
    · cases hd; cases hq; exact hp hin

/-- C5, at an input: status 200 after 10 ms with body "ok" and the format-string
payload, which "ok" does not contain. -/
theorem suspicion_heuristic_iff_witness :
    ¬ "%s%s%s%s%s".data <:+: "ok".data
      ∧ isSuspicious 200 10 (.str "ok") (.str "%s%s%s%s%s") = false :=
  ⟨by decide, suspicion_heuristic_iff.2.2.2 "%s%s%s%s%s" (by decide)⟩

/-- C6. The reflection rule needs a string payload and a string response body:
with a payload that is not a string, a response with status below 500 and
latency at most 2000 ms is not flagged whatever its body is; and with a
response body that is not a string the flag is decided by status and latency
alone. -/
theorem reflection_needs_strings :
    (∀ (status : Nat) (duration : Int) (data payload : Json),
        payload.isString = false → status < 500 → duration ≤ 2000 →
          isSuspicious status duration data payload = false)
      ∧ (∀ (status : Nat) (duration : Int) (data payload : Json),
          data.isString = false →
            reflects data payload = false
              ∧ isSuspicious status duration data payload
                  = (decide (500 ≤ status) || decide (2000 < duration))) := by
  constructor
  · intro status duration data payload hp hs hd
    have hr : reflects data payload = false := by
      cases data <;> cases payload <;> simp_all [reflects, Json.isString]
    rw [isSuspicious_eq, hr]
    simp only [Bool.or_false, Bool.or_eq_false_iff, decide_eq_false_iff_not]
    omega
  · intro status duration data payload hd
    have hr : reflects data payload = false := by
      cases data <;> cases payload <;> simp_all [reflects, Json.isString]
    exact ⟨hr, by rw [isSuspicious_eq, hr, Bool.or_false]⟩

/-- C6, at an input: the NoSQL operator payload `{"$ne": null}` against a
response of status 200 after 10 ms whose body is the text `$ne`. -/
theorem reflection_needs_strings_witness :
    isSuspicious 200 10 (.str "$ne") (.obj [("$ne", .null)]) = false :=
  reflection_needs_strings.1 200 10 (.str "$ne") (.obj [("$ne", .null)]) rfl
    (by decide) (by decide)

/-! ## The dispatcher: proofs -/

theorem vulnerabilityData_append (xs ys : List Event) :
    vulnerabilityData (xs ++ ys) = vulnerabilityData xs ++ vulnerabilityData ys := by
  induction xs with
  | nil => rfl
  | cons x xs ih => cases x <;> simp [vulnerabilityData, ih]

theorem vulnerabilityData_dispatchOne (orig : CapturedRequest) (url : String) (total : Nat)
    (st : WorkerState) (m : Mutation) (o : Outcome) :
    vulnerabilityData (dispatchOne orig url total st m o).posted
      = vulnerabilityData st.posted ++ (findingFor m o).toList := by
  cases o with
  | networkError => simp [dispatchOne, findingFor]
  | response status data duration =>
    simp only [dispatchOne, findingFor]
    by_cases hs : isSuspicious status duration data m.payload = true <;>
      by_cases hp : (st.requestsSent + 1) % 10 = 0 <;>
      simp [hs, hp, vulnerabilityData_append, vulnerabilityData]

theorem vulnerabilityData_dispatchAll (orig : CapturedRequest) (url : String) (total : Nat)
    (net : Nat → Outcome) (ms : List Mutation) (i : Nat) (st : WorkerState) :
    vulnerabilityData (dispatchAll orig url total net i ms st).posted
      = vulnerabilityData st.posted ++ expectedFindings net i ms := by
  induction ms generalizing i st with
  | nil => simp [dispatchAll, expectedFindings]
  | cons m ms ih =>
    rw [dispatchAll, ih, vulnerabilityData_dispatchOne]
    simp only [expectedFindings, List.enumFrom_cons, List.filterMap_cons, List.append_assoc]
    cases findingFor m (net i) <;> simp

/-- C7. The vulnerability messages posted by a run are, in order, exactly the
findings of the candidates whose response was flagged, in candidate order:
each carries the candidate's type, field and payload with the status and the
latency of its response, and a candidate whose request failed or whose
response is not flagged contributes none.  A run whose generator throws posts
nothing. -/
theorem vulnerability_events_match_flagged (originalReq : CapturedRequest) (targetUrl : String)
    (net : Nat → Outcome) :
    vulnerabilityData (runAttack originalReq targetUrl net).posted
      = match generateMutations originalReq.body originalReq.body "" with
        | .ok mutations =>
          (mutations.enumFrom 0).filterMap (fun im => findingFor im.2 (net im.1))
        | .error _ => [] := by
  unfold runAttack
  cases h : generateMutations originalReq.body originalReq.body "" with
  | error e => simp [WorkerState.initial, vulnerabilityData]
  | ok ms =>
    simp only [vulnerabilityData_append, vulnerabilityData_dispatchAll]
    simp [vulnerabilityData, expectedFindings]

theorem counters_dispatchAll_of_allServerErrors (orig : CapturedRequest) (url : String)
    (total : Nat) (net : Nat → Outcome) (hnet : AllServerErrors net)
    (ms : List Mutation) (i : Nat) (st : WorkerState) :
    (dispatchAll orig url total net i ms st).requestsSent = st.requestsSent + ms.length
      ∧ (dispatchAll orig url total net i ms st).vulnerabilitiesFound
          = st.vulnerabilitiesFound + ms.length := by
  induction ms generalizing i st with
  | nil => simp [dispatchAll]
  | cons m ms ih =>
    obtain ⟨status, data, duration, hi, hs⟩ := hnet i
    have hsus : isSuspicious status duration data m.payload = true := by
      rw [isSuspicious_eq]; simp [hs]
    rw [dispatchAll, hi]
    obtain ⟨h1, h2⟩ := ih (i + 1) (dispatchOne orig url total st m (.response status data duration))
    rw [h1, h2]
    simp only [dispatchOne, hsus, if_true, List.length_cons]
    by_cases hp : (st.requestsSent + 1) % 10 = 0 <;> simp [hp] <;> omega

/-- C8. When every request is answered with a status of at least 500, the last
message of the run of a body whose generator returns `mutations` is `done` with
`totalSent` and `vulnerabilitiesFound` both equal to the number of candidates.
For the body `{"user": {"name": "a"}}` the generator returns 26 candidates, 13
for `user.name` followed by 13 for `user`, and the run against a target that
always answers 500 ends with `done`, 26 sent, 26 found. -/
theorem all_server_errors_flag_every_candidate :
    (∀ (originalReq : CapturedRequest) (targetUrl : String) (net : Nat → Outcome)
        (mutations : List Mutation),
        AllServerErrors net →
        generateMutations originalReq.body originalReq.body "" = .ok mutations →
          (runAttack originalReq targetUrl net).posted.getLast?
              = some (.done mutations.length mutations.length)
            ∧ (runAttack originalReq targetUrl net).requestsSent = mutations.length
            ∧ (runAttack originalReq targetUrl net).vulnerabilitiesFound = mutations.length)
      ∧ (generateMutations userBody userBody "").map (List.map Mutation.field)
          = .ok (List.replicate 13 "user.name" ++ List.replicate 13 "user")
      ∧ (∀ (id timestamp method targetUrl : String) (headers : List (String × String)),
          (runAttack ⟨id, timestamp, method, headers, userBody⟩ targetUrl always500).posted.getLast?
            = some (.done 26 26)) := by
  have gen : ∀ (originalReq : CapturedRequest) (targetUrl : String) (net : Nat → Outcome)
      (mutations : List Mutation), AllServerErrors net →
      generateMutations originalReq.body originalReq.body "" = .ok mutations →
        (runAttack originalReq targetUrl net).posted.getLast?
            = some (.done mutations.length mutations.length)
          ∧ (runAttack originalReq targetUrl net).requestsSent = mutations.length
          ∧ (runAttack originalReq targetUrl net).vulnerabilitiesFound = mutations.length := by
    intro orig url net ms hnet hgen
    obtain ⟨h1, h2⟩ := counters_dispatchAll_of_allServerErrors orig url ms.length net hnet ms 0
      { WorkerState.initial with posted := [.info (infoMessage ms.length)] }
    simp only [WorkerState.initial, Nat.zero_add] at h1 h2
    simp only [runAttack, hgen, WorkerState.initial, List.getLast?_concat, h1, h2, and_self]
  refine ⟨gen, rfl, ?_⟩
  intro id timestamp method targetUrl headers
  have hnet : AllServerErrors always500 := fun _ => ⟨500, _, 5, rfl, le_refl _⟩
  obtain ⟨ms, hms, hlen⟩ : ∃ ms, generateMutations userBody userBody "" = .ok ms
      ∧ ms.length = 26 := ⟨_, rfl, rfl⟩
  have := (gen ⟨id, timestamp, method, headers, userBody⟩ targetUrl always500 ms hnet hms).1
  rw [hlen] at this
  exact this

/-- C8, at an input: the body `{"user": {"name": "a"}}` captured from a POST,
run against a target that always answers 500. -/
theorem all_server_errors_flag_every_candidate_witness :
    (runAttack ⟨"1700000000000", "10:00:00", "POST", [], userBody⟩ "http://target/hook"
        always500).posted.getLast? = some (.done 26 26) :=
  all_server_errors_flag_every_candidate.2.2 "1700000000000" "10:00:00" "POST"
    "http://target/hook" []

/-- C9. For a body without children (the empty object, the empty array, a
primitive) the generator returns the empty list, and the run issues no request
and posts the `info` message followed by `done` with 0 sent and 0 found. -/
theorem childless_body_run (originalReq : CapturedRequest) (targetUrl : String)
    (net : Nat → Outcome)
    (hbody : originalReq.body = .obj [] ∨ originalReq.body = .arr []
      ∨ originalReq.body.isComposite = false) :
    generateMutations originalReq.body originalReq.body "" = .ok []
      ∧ (runAttack originalReq targetUrl net).issued = []
      ∧ (runAttack originalReq targetUrl net).posted
          = [.info "Generated 0 distinct mutation payloads.", .done 0 0] := by
  have hgen : generateMutations originalReq.body originalReq.body "" = .ok [] := by
    rcases hbody with h | h | h
    · rw [h]; rfl
    · rw [h]; rfl
    · cases hb : originalReq.body <;> simp_all [Json.isComposite, generateMutations]
  refine ⟨hgen, ?_, ?_⟩
  · simp [runAttack, hgen, dispatchAll, WorkerState.initial]
  · simp only [runAttack, hgen, dispatchAll, WorkerState.initial, List.length_nil,
      List.singleton_append]
    rfl

/-- C9, at an input: the empty body `{}` of a captured POST. -/
theorem childless_body_run_witness :
    (runAttack ⟨"1700000000000", "10:00:00", "POST", [], .obj []⟩ "http://target/hook"
        always500).posted = [.info "Generated 0 distinct mutation payloads.", .done 0 0] :=
  (childless_body_run ⟨"1700000000000", "10:00:00", "POST", [], .obj []⟩ "http://target/hook"
    always500 (Or.inl rfl)).2.2

/-! ## Job submission: proofs -/

/-- C10. The submit endpoint replies 404 exactly when no entry of the capture
buffer has the given id; otherwise it replies 400 exactly when `targetUrl` is
falsy, which for a field that is absent or a string means missing or empty;
otherwise it replies with the job id read from the clock and stores a fresh
running job under it.  On 404 and on 400 the server state is unchanged. -/
theorem submit_outcomes (srv : Server) (requestId targetUrl : Option Json) (now : Nat) :
    ((mutateAttack srv requestId targetUrl now).2 = .notFound
        ↔ ∀ r ∈ srv.capturedRequests, requestId ≠ some (.str r.id))
      ∧ ((∃ r ∈ srv.capturedRequests, requestId = some (.str r.id)) →
          ((mutateAttack srv requestId targetUrl now).2 = .badRequest ↔ falsy targetUrl = true))
      ∧ (falsy none = true ∧ ∀ url : String, falsy (some (.str url)) = true ↔ url = "")
      ∧ ((∃ r ∈ srv.capturedRequests, requestId = some (.str r.id)) → falsy targetUrl = false →
          mutateAttack srv requestId targetUrl now
            = ({ srv with mutationJobs := setOwn (toString now) Job.fresh srv.mutationJobs },
               .started (toString now)))
      ∧ ((mutateAttack srv requestId targetUrl now).2 = .notFound
            ∨ (mutateAttack srv requestId targetUrl now).2 = .badRequest →
          (mutateAttack srv requestId targetUrl now).1 = srv) := by
  have hm : ∀ r : CapturedRequest, idMatches requestId r = true ↔ requestId = some (.str r.id) := by
    intro r
    cases requestId with
    | none => simp [idMatches]
    | some v =>
      cases v with
      | str s =>
        simp only [idMatches, beq_iff_eq]
        constructor
        · intro h; rw [h]
        · intro h; cases h; rfl
      | null => simp [idMatches]
      | bool b => simp [idMatches]
      | num n => simp [idMatches]
      | arr items => simp [idMatches]
      | obj props => simp [idMatches]
  have hfind : srv.capturedRequests.find? (idMatches requestId) = none
      ↔ ∀ r ∈ srv.capturedRequests, requestId ≠ some (.str r.id) := by
    rw [List.find?_eq_none]
    constructor
    · intro h r hr heq; exact h r hr ((hm r).2 heq)
    · intro h r hr hid; exact h r hr ((hm r).1 hid)
  have hsome : (∃ r ∈ srv.capturedRequests, requestId = some (.str r.id)) →
      ∃ r, srv.capturedRequests.find? (idMatches requestId) = some r := by
    rintro ⟨r, hr, heq⟩
    cases hf : srv.capturedRequests.find? (idMatches requestId) with
    | none => exact absurd heq (hfind.1 hf r hr)
    | some r' => exact ⟨r', rfl⟩
  refine ⟨?_, ?_, ⟨rfl, fun url => by simp [falsy]⟩, ?_, ?_⟩
  · rw [← hfind]
    unfold mutateAttack
    cases hf : srv.capturedRequests.find? (idMatches requestId) with
    | none => simp
    | some r => by_cases ht : falsy targetUrl = true <;> simp [ht]
  · intro hex
    obtain ⟨r, hr⟩ := hsome hex
    unfold mutateAttack
    rw [hr]
    by_cases ht : falsy targetUrl = true <;> simp [ht]
  · intro hex ht
    obtain ⟨r, hr⟩ := hsome hex
    unfold mutateAttack
    rw [hr]
    simp [ht]
  · unfold mutateAttack
    cases hf : srv.capturedRequests.find? (idMatches requestId) with
    | none => simp
    | some r => by_cases ht : falsy targetUrl = true <;> simp [ht]

/-! ## The mutation generator on well-keyed bodies -/

theorem toDigitsCore_eq_append (m : Nat) :
    ∀ (f : Nat) (ds : List Char), m < f →
      Nat.toDigitsCore 10 f m ds = Nat.toDigitsCore 10 (m + 1) m [] ++ ds := by
  induction m using Nat.strong_induction_on with
  | _ m ih =>
    intro f ds hf
    obtain ⟨f', rfl⟩ : ∃ f', f = f' + 1 := ⟨f - 1, by omega⟩
    by_cases h0 : m / 10 = 0
    · simp [Nat.toDigitsCore, h0]
    · have hlt : m / 10 < m := by omega
      have h1 := ih (m / 10) hlt f' (Nat.digitChar (m % 10) :: ds) (by omega)
      have h2 := ih (m / 10) hlt m [Nat.digitChar (m % 10)] hlt
      simp only [Nat.toDigitsCore, h0, if_false, h1, h2, List.append_assoc, List.singleton_append]

theorem toDigits_small (n : Nat) (h : n < 10) : Nat.toDigits 10 n = [Nat.digitChar n] := by
  have h0 : n / 10 = 0 := by omega
  have hm : n % 10 = n := by omega
  simp [Nat.toDigits, Nat.toDigitsCore, h0, hm]

theorem toDigits_big (n : Nat) (h : 10 ≤ n) :
    Nat.toDigits 10 n = Nat.toDigits 10 (n / 10) ++ [Nat.digitChar (n % 10)] := by
  have h0 : n / 10 ≠ 0 := by omega
  have hlt : n / 10 < n := by omega
  simp only [Nat.toDigits, Nat.toDigitsCore, h0, if_false]
  exact toDigitsCore_eq_append (n / 10) n _ hlt

theorem digitChar_props (d : Nat) (h : d < 10) :
    (Nat.digitChar d).toNat - 48 = d ∧ Nat.digitChar d ≠ '.' := by
  interval_cases d <;> exact ⟨by decide, by decide⟩

theorem digitsValue_toDigits (n : Nat) : digitsValue (Nat.toDigits 10 n) = n := by
  induction n using Nat.strong_induction_on with
  | _ n ih =>
    by_cases h : n < 10
    · rw [toDigits_small n h]
      simp [digitsValue, (digitChar_props n h).1]
    · have hlt : n / 10 < n := by omega
      rw [toDigits_big n (by omega)]
      have := ih (n / 10) hlt
      simp only [digitsValue] at this ⊢
      rw [List.foldl_append, this]
      simp [(digitChar_props (n % 10) (Nat.mod_lt _ (by decide))).1]
      omega

theorem toDigits_no_dot (n : Nat) : '.' ∉ Nat.toDigits 10 n := by
  induction n using Nat.strong_induction_on with
  | _ n ih =>
    by_cases h : n < 10
    · rw [toDigits_small n h]
      simp [(digitChar_props n h).2.symm]
    · rw [toDigits_big n (by omega)]
      have := ih (n / 10) (by omega)
      simp [this, (digitChar_props (n % 10) (Nat.mod_lt _ (by decide))).2.symm]

theorem toDigits_ne_nil (n : Nat) : Nat.toDigits 10 n ≠ [] := by
  by_cases h : n < 10
  · rw [toDigits_small n h]; simp
  · rw [toDigits_big n (by omega)]; simp

theorem toString_nat_data (n : Nat) : (toString n).data = Nat.toDigits 10 n := rfl

theorem toString_nat_injective (i j : Nat) (h : toString i = toString j) : i = j := by
  have := congrArg (fun s => digitsValue s.data) h
  simpa [toString_nat_data, digitsValue_toDigits] using this

theorem intercalate_go_concat (acc : String) (keys : List String) (key : String) :
    String.intercalate.go acc "." (keys ++ [key])
      = String.intercalate.go acc "." keys ++ "." ++ key := by
  induction keys generalizing acc with
  | nil => simp [String.intercalate.go]
  | cons k ks ih => simp [String.intercalate.go, ih]

theorem intercalate_go_data (acc : String) (keys : List String) :
    (String.intercalate.go acc "." keys).data
      = acc.data ++ (keys.map (fun k => '.' :: k.data)).flatten := by
  induction keys generalizing acc with
  | nil => simp [String.intercalate.go]
  | cons k ks ih =>
    simp only [String.intercalate.go, ih, String.data_append, List.map_cons, List.flatten_cons,
      List.append_assoc]
    rfl

theorem pathOf_cons_data (key : String) (keys : List String) :
    (pathOf (key :: keys)).data = key.data ++ (keys.map (fun k => '.' :: k.data)).flatten := by
  simp only [pathOf, String.intercalate, intercalate_go_data]

theorem pathOf_ne_empty (key : String) (keys : List String) (h : goodKey key = true) :
    pathOf (key :: keys) ≠ "" := by
  intro he
  have := congrArg String.data he
  rw [pathOf_cons_data] at this
  have hk : key.data ≠ [] := by
    intro hd
    have : key = "" := by cases key; simp_all
    simp [goodKey, this] at h
  cases hkd : key.data with
  | nil => exact hk hkd
  | cons c cs => rw [hkd] at this; simp at this

/-- The template of `newPath` extends the dotted path by one key. -/
theorem joinPath_pathOf (pre : List String) (key : String)
    (hpre : ∀ k ∈ pre, goodKey k = true) :
    joinPath (pathOf pre) key = pathOf (pre ++ [key]) := by
  cases pre with
  | nil => simp [joinPath, pathOf, String.intercalate, String.intercalate.go]
  | cons k ks =>
    have hne := pathOf_ne_empty k ks (hpre k (by simp))
    simp only [joinPath, hne, if_false]
    simp only [pathOf, String.intercalate, List.cons_append, intercalate_go_concat]

theorem splitOn_dotted (x : List Char) (xs : List (List Char))
    (hx : '.' ∉ x) (hxs : ∀ y ∈ xs, '.' ∉ y) :
    (x ++ (xs.map (fun k => '.' :: k)).flatten).splitOn '.' = x :: xs := by
  induction xs generalizing x with
  | nil =>
    simp only [List.map_nil, List.flatten_nil, List.append_nil, List.splitOn]
    exact List.splitOnP_eq_single _ _ (by intro c hc; simp; rintro rfl; exact hx hc)
  | cons y ys ih =>
    simp only [List.map_cons, List.flatten_cons, List.cons_append, List.splitOn]
    rw [List.splitOnP_first _ _ (by intro c hc; simp; rintro rfl; exact hx hc) '.' (by simp)]
    congr 1
    exact ih y (hxs y (by simp)) (fun z hz => hxs z (by simp [hz]))

/-- Splitting the dotted path of good keys gives the keys back. -/
theorem splitPath_pathOf (keys : List String) (hne : keys ≠ [])
    (hkeys : ∀ k ∈ keys, goodKey k = true) : splitPath (pathOf keys) = keys := by
  cases keys with
  | nil => exact absurd rfl hne
  | cons k ks =>
    have hdot : ∀ k' : String, goodKey k' = true → '.' ∉ k'.data := by
      intro k' h; simp [goodKey] at h; simpa using h.2
    have hmap : (ks.map (fun k => '.' :: k.data)) = ((ks.map String.data).map (fun k => '.' :: k)) := by
      simp [List.map_map]
    rw [splitPath, pathOf_cons_data, hmap,
      splitOn_dotted k.data (ks.map String.data) (hdot k (hkeys k (by simp)))
        (by intro y hy; simp at hy; obtain ⟨a, ha, rfl⟩ := hy; exact hdot a (hkeys a (by simp [ha])))]
    simp [List.map_map, Function.comp_def]

/-- The decimal form of an array index is a good key. -/
theorem goodKey_toString (i : Nat) : goodKey (toString i) = true := by
  have h1 : toString i ≠ "" := by
    intro h
    have := congrArg String.data h
    rw [toString_nat_data] at this
    exact toDigits_ne_nil i this
  have h2 := toDigits_no_dot i
  simp [goodKey, h1, toString_nat_data, h2]

theorem lookup_of_mem_nodup (props : List (String × Json)) (key : String) (value : Json)
    (hnd : (props.map Prod.fst).Nodup) (hmem : (key, value) ∈ props) :
    props.lookup key = some value := by
  induction props with
  | nil => simp at hmem
  | cons p rest ih =>
    obtain ⟨k, c⟩ := p
    simp only [List.map_cons, List.nodup_cons] at hnd
    rcases List.mem_cons.1 hmem with h | h
    · cases h; simp [List.lookup]
    · have hne : key ≠ k := by
        rintro rfl
        exact hnd.1 (List.mem_map.2 ⟨(key, value), h, rfl⟩)
      have hb : (key == k) = false := by simpa using hne
      simp only [List.lookup, hb]
      exact ih hnd.2 h

theorem arrayIndex_toString (j len : Nat) (h : j < len) : arrayIndex (toString j) len = some j := by
  unfold arrayIndex
  cases hf : (List.range len).find? (fun i => toString i = toString j) with
  | none =>
    rw [List.find?_eq_none] at hf
    have := hf j (List.mem_range.2 h)
    simp at this
  | some x =>
    have := List.find?_some hf
    simp only [decide_eq_true_eq] at this
    rw [toString_nat_injective x j this]

theorem childAt_ops (cur : Json) (key : String) (child : Json) (h : childAt cur key = some child) :
    getProp cur key = .ok (some child)
      ∧ ∀ v, assignProp cur key v = .ok (putChild cur key v) := by
  cases cur with
  | obj props =>
    simp only [childAt] at h
    simp [getProp, assignProp, putChild, h]
  | arr items =>
    simp only [childAt] at h
    cases hi : arrayIndex key items.length with
    | none => simp [hi] at h
    | some i =>
      simp only [hi] at h
      simp [getProp, assignProp, putChild, hi, h]
  | null => simp [childAt] at h
  | bool b => simp [childAt] at h
  | num n => simp [childAt] at h
  | str s => simp [childAt] at h

/-- Along a key sequence that leads to a subtree, the loop of `setByPath`
performs the replacement at that location. -/
theorem setParts_eq_replaceAt (keys : List String) :
    ∀ (cur sub value : Json), keys ≠ [] → subtreeAt cur keys = some sub →
      setParts cur keys value = .ok (replaceAt cur keys value) := by
  induction keys with
  | nil => intro _ _ _ h; exact absurd rfl h
  | cons k ks ih =>
    intro cur sub value _ hsub
    simp only [subtreeAt] at hsub
    cases hc : childAt cur k with
    | none => simp [hc] at hsub
    | some child =>
      simp only [hc] at hsub
      obtain ⟨hget, hset⟩ := childAt_ops cur k child hc
      cases ks with
      | nil => simp [setParts, replaceAt, hc, hset]
      | cons k2 ks2 =>
        have := ih child sub value (by simp) hsub
        simp only [setParts, hget, this, hset, replaceAt, hc]

theorem setByPath_pathOf (root sub value : Json) (keys : List String) (hne : keys ≠ [])
    (hkeys : ∀ k ∈ keys, goodKey k = true) (hsub : subtreeAt root keys = some sub) :
    setByPath (clone root) (pathOf keys) value = .ok (replaceAt root keys value) := by
  rw [setByPath, splitPath_pathOf keys hne hkeys, clone]
  exact setParts_eq_replaceAt keys root sub value hne hsub

theorem mutateField_pathOf (root sub : Json) (keys : List String) (hne : keys ≠ [])
    (hkeys : ∀ k ∈ keys, goodKey k = true) (hsub : subtreeAt root keys = some sub)
    (vectors : List AttackVector) :
    mutateField root (pathOf keys) vectors
      = .ok (vectors.map (fun vector =>
          { mutationType := vector.type, field := pathOf keys, payload := vector.payload,
            body := replaceAt root keys vector.payload })) := by
  induction vectors with
  | nil => rfl
  | cons v vs ih =>
    simp only [mutateField, setByPath_pathOf root sub v.payload keys hne hkeys hsub, ih,
      List.map_cons]

theorem subtreeAt_concat (root : Json) (pre : List String) (key : String) :
    subtreeAt root (pre ++ [key]) = (subtreeAt root pre).bind (fun t => childAt t key) := by
  induction pre generalizing root with
  | nil => simp only [List.nil_append, subtreeAt, Option.some_bind]; cases childAt root key <;> rfl
  | cons k ks ih =>
    simp only [List.cons_append, subtreeAt]
    cases childAt root k with
    | none => rfl
    | some c => exact ih c

mutual
theorem generateMutations_spec (root : Json) :
    ∀ (t : Json) (pre : List String), subtreeAt root pre = some t → wellKeyed t = true →
      (∀ k ∈ pre, goodKey k = true) →
      generateMutations root t (pathOf pre)
        = .ok ((walk t).flatMap (fun keys => fieldCandidates root (pre ++ keys)))
  | .obj props, pre, hsub, hwk, hpre => by
    simp only [wellKeyed, Bool.and_eq_true, decide_eq_true_eq] at hwk
    rw [generateMutations, walk]
    refine genProps_spec root props pre ?_ hwk.2 hpre
    intro k c hmem
    rw [subtreeAt_concat, hsub]
    exact lookup_of_mem_nodup props k c hwk.1 hmem
  | .arr items, pre, hsub, hwk, hpre => by
    simp only [wellKeyed] at hwk
    rw [generateMutations, walk]
    refine genItems_spec root items 0 pre ?_ hwk hpre
    intro j c hj
    have hlt : j < items.length := by
      by_contra hge
      rw [List.getElem?_eq_none (by omega)] at hj
      cases hj
    rw [subtreeAt_concat, hsub]
    simp only [Option.some_bind, childAt, Nat.zero_add, arrayIndex_toString j _ hlt, hj]
  | .null, _, _, _, _ => by simp [generateMutations, walk]
  | .bool _, _, _, _, _ => by simp [generateMutations, walk]
  | .num _, _, _, _, _ => by simp [generateMutations, walk]
  | .str _, _, _, _, _ => by simp [generateMutations, walk]
theorem genProps_spec (root : Json) :
    ∀ (props : List (String × Json)) (pre : List String),
      (∀ k c, (k, c) ∈ props → subtreeAt root (pre ++ [k]) = some c) →
      wellKeyedProps props = true → (∀ k ∈ pre, goodKey k = true) →
      genProps root (pathOf pre) props
        = .ok ((walkProps props).flatMap (fun keys => fieldCandidates root (pre ++ keys)))
  | [], _, _, _, _ => by simp [genProps, walkProps]
  | (key, value) :: rest, pre, hsub, hwk, hpre => by
    simp only [wellKeyedProps, Bool.and_eq_true] at hwk
    have hpre' : ∀ k ∈ pre ++ [key], goodKey k = true := by
      intro k hk
      rcases List.mem_append.1 hk with h | h
      · exact hpre k h
      · rw [List.mem_singleton.1 h]; exact hwk.1.1
    have hc := hsub key value (by simp)
    have h1 := generateMutations_spec root value (pre ++ [key]) hc hwk.1.2 hpre'
    have h2 := mutateField_pathOf root value (pre ++ [key]) (by simp) hpre' hc ATTACK_VECTORS
    have h3 := genProps_spec root rest pre (fun k c h => hsub k c (by simp [h])) hwk.2 hpre
    rw [genProps, joinPath_pathOf pre key hpre, h1, h2, h3]
    simp [walkProps, List.flatMap_append, List.flatMap_map, fieldCandidates]
theorem genItems_spec (root : Json) :
    ∀ (items : List Json) (i : Nat) (pre : List String),
      (∀ j c, items[j]? = some c → subtreeAt root (pre ++ [toString (i + j)]) = some c) →
      wellKeyedItems items = true → (∀ k ∈ pre, goodKey k = true) →
      genItems root (pathOf pre) i items
        = .ok ((walkItems i items).flatMap (fun keys => fieldCandidates root (pre ++ keys)))
  | [], _, _, _, _, _ => by simp [genItems, walkItems]
  | value :: rest, i, pre, hsub, hwk, hpre => by
    simp only [wellKeyedItems, Bool.and_eq_true] at hwk
    have hpre' : ∀ k ∈ pre ++ [toString i], goodKey k = true := by
      intro k hk
      rcases List.mem_append.1 hk with h | h
      · exact hpre k h
      · rw [List.mem_singleton.1 h]; exact goodKey_toString i
    have hc := hsub 0 value (by simp)
    rw [Nat.add_zero] at hc
    have h1 := generateMutations_spec root value (pre ++ [toString i]) hc hwk.1 hpre'
    have h2 := mutateField_pathOf root value (pre ++ [toString i]) (by simp) hpre' hc
      ATTACK_VECTORS
    have h3 := genItems_spec root rest (i + 1) pre
      (fun j c h => by
        have := hsub (j + 1) c (by simpa using h)
        rwa [show i + (j + 1) = i + 1 + j by omega] at this) hwk.2 hpre
    rw [genItems, joinPath_pathOf pre (toString i) hpre, h1, h2, h3]
    simp [walkItems, List.flatMap_append, List.flatMap_map, fieldCandidates]
end

/-- On a well-keyed body the generator returns the candidate list of the
specification: for every key sequence of the walk, in walk order, one
candidate per catalog vector whose body is the root with the value at that
location replaced by the payload. -/
theorem generateMutations_eq_specCandidates (body : Json) (h : wellKeyed body = true) :
    generateMutations body body "" = .ok (specCandidates body) := by
  have := generateMutations_spec body body [] rfl h (by simp)
  simpa [pathOf, String.intercalate, specCandidates] using this

mutual
theorem walk_length : ∀ t : Json, (walk t).length = countFieldOccurrences t
  | .obj props => by rw [walk, countFieldOccurrences]; exact walkProps_length props
  | .arr items => by rw [walk, countFieldOccurrences]; exact walkItems_length items 0
  | .null => by simp [walk, countFieldOccurrences]
  | .bool _ => by simp [walk, countFieldOccurrences]
  | .num _ => by simp [walk, countFieldOccurrences]
  | .str _ => by simp [walk, countFieldOccurrences]
theorem walkProps_length : ∀ props : List (String × Json),
    (walkProps props).length = countFieldOccurrences.countProps props
  | [] => by simp [walkProps, countFieldOccurrences.countProps]
  | (_, value) :: rest => by
    simp [walkProps, countFieldOccurrences.countProps, walk_length value, walkProps_length rest]
    omega
theorem walkItems_length : ∀ (items : List Json) (i : Nat),
    (walkItems i items).length = countFieldOccurrences.countItems items
  | [], _ => by simp [walkItems, countFieldOccurrences.countItems]
  | value :: rest, i => by
    simp [walkItems, countFieldOccurrences.countItems, walk_length value,
      walkItems_length rest (i + 1)]
    omega
end

theorem specCandidates_length (body : Json) :
    (specCandidates body).length = countFieldOccurrences body * ATTACK_VECTORS.length := by
  rw [← walk_length, specCandidates]
  generalize walk body = l
  induction l with
  | nil => simp
  | cons ks l ih =>
    simp only [List.flatMap_cons, List.length_append, ih, List.length_cons, fieldCandidates,
      List.length_map]
    ring

/-- On a well-keyed body the generator returns, and the number of candidates
is the number of field occurrences times the size of the catalog. -/
theorem generateMutations_length_of_wellKeyed (body : Json) (h : wellKeyed body = true) :
    ∃ mutations, generateMutations body body "" = .ok mutations
      ∧ mutations.length = countFieldOccurrences body * 13 :=
  ⟨specCandidates body, generateMutations_eq_specCandidates body h,
    specCandidates_length body⟩

/-! ## The mutation generator at bodies with dotted or empty keys -/

/-- C1, at the body `{"a.b": 1}`.  The walk meets one key, so the count
formula asks for 1 * 13 = 13 candidates.  The generator builds the path `a.b`
for that key, `setByPath` splits it into `a` and `b`, reads the missing
property `a` (`undefined`) and throws a `TypeError` on the write of `b`; the
generator therefore throws and returns no candidate list. -/
theorem generator_throws_on_dotted_key :
    countFieldOccurrences dottedKeyBody * ATTACK_VECTORS.length = 13
      ∧ splitPath "a.b" = ["a", "b"]
      ∧ getProp dottedKeyBody "a" = .ok none
      ∧ setByPath (clone dottedKeyBody) "a.b" (.str "' OR '1'='1") = .error .typeError
      ∧ generateMutations dottedKeyBody dottedKeyBody "" = .error .typeError := by
  refine ⟨rfl, rfl, rfl, rfl, rfl⟩

/-- C2, at the bodies `{"a.b": 1, "a": {"b": 2}}` and `{"": {"a": 1}}`.  The
first candidate of the first body is produced for the top-level key `a.b`
(key sequence `["a.b"]`): the specification asks for the body with the value
under that key replaced, the generator leaves that value at 1 and replaces the
value of `b` inside `a`.  The first candidate of the second body is produced
for the key `a` inside the property with the empty name (key sequence
`["", "a"]`): the generator leaves that value at 1 and adds a property `a` to
the root. -/
theorem generator_misplaces_payload :
    (generateMutations shadowedKeyBody shadowedKeyBody "").map
        (fun ms => (ms.take 1).map (fun m => (m.field, m.payload, m.body)))
      = .ok [("a.b", .str "' OR '1'='1",
              .obj [("a.b", .num 1), ("a", .obj [("b", .str "' OR '1'='1")])])]
    ∧ (walk shadowedKeyBody).take 1 = [["a.b"]]
    ∧ replaceAt shadowedKeyBody ["a.b"] (.str "' OR '1'='1")
      = .obj [("a.b", .str "' OR '1'='1"), ("a", .obj [("b", .num 2)])]
    ∧ (generateMutations emptyKeyBody emptyKeyBody "").map
        (fun ms => (ms.take 1).map (fun m => (m.field, m.payload, m.body)))
      = .ok [("a", .str "' OR '1'='1",
              .obj [("", .obj [("a", .num 1)]), ("a", .str "' OR '1'='1")])]
    ∧ (walk emptyKeyBody).take 1 = [["", "a"]]
    ∧ replaceAt emptyKeyBody ["", "a"] (.str "' OR '1'='1")
      = .obj [("", .obj [("a", .str "' OR '1'='1")])] := by
  refine ⟨rfl, rfl, rfl, rfl, rfl, rfl⟩

/-! ## Job submission and job records: further proofs -/

theorem idMatches_iff (requestId : Option Json) (r : CapturedRequest) :
    idMatches requestId r = true ↔ requestId = some (.str r.id) := by
  cases requestId with
  | none => simp [idMatches]
  | some v =>
    cases v with
    | str s =>
      simp only [idMatches, beq_iff_eq]
      constructor
      · intro h; rw [h]
      · intro h; cases h; rfl
    | null => simp [idMatches]
    | bool b => simp [idMatches]
    | num n => simp [idMatches]
    | arr items => simp [idMatches]
    | obj props => simp [idMatches]

theorem find_of_resolves (srv : Server) (requestId : Option Json)
    (h : ∃ r ∈ srv.capturedRequests, requestId = some (.str r.id)) :
    ∃ r, srv.capturedRequests.find? (idMatches requestId) = some r := by
  obtain ⟨r, hr, heq⟩ := h
  cases hf : srv.capturedRequests.find? (idMatches requestId) with
  | none =>
    rw [List.find?_eq_none] at hf
    exact absurd ((idMatches_iff requestId r).2 heq) (hf r hr)
  | some r' => exact ⟨r', rfl⟩

theorem lookup_setOwn_self {α : Type} (key : String) (value : α) (m : List (String × α)) :
    (setOwn key value m).lookup key = some value := by
  induction m with
  | nil => simp [setOwn, List.lookup]
  | cons p rest ih =>
    obtain ⟨k, v⟩ := p
    by_cases hk : k = key
    · simp [setOwn, hk, List.lookup]
    · have hb : (key == k) = false := by simpa using fun h => hk h.symm
      simp [setOwn, hk, List.lookup, hb, ih]

theorem lookup_setOwn_other {α : Type} (key other : String) (value : α)
    (m : List (String × α)) (hne : other ≠ key) :
    (setOwn key value m).lookup other = m.lookup other := by
  induction m with
  | nil =>
    have hb : (other == key) = false := by simpa using hne
    simp [setOwn, List.lookup, hb]
  | cons p rest ih =>
    obtain ⟨k, v⟩ := p
    by_cases hk : k = key
    · subst hk
      have hb : (other == k) = false := by simpa using hne
      simp [setOwn, List.lookup, hb]
    · by_cases ho : other = k
      · simp [setOwn, hk, List.lookup, ho]
      · have hb : (other == k) = false := by simpa using ho
        simp [setOwn, hk, List.lookup, hb, ih]

/-- C11, as the code has it. When the capture id resolves to a captured request
and `targetUrl` is missing or the empty string, the submit endpoint replies
400 (bad request), not 404, and leaves the server state unchanged. -/
theorem submit_empty_target_is_bad_request (srv : Server) (requestId targetUrl : Option Json)
    (now : Nat) (hres : ∃ r ∈ srv.capturedRequests, requestId = some (.str r.id))
    (hurl : targetUrl = none ∨ targetUrl = some (.str "")) :
    mutateAttack srv requestId targetUrl now = (srv, .badRequest) := by
  obtain ⟨r, hr⟩ := find_of_resolves srv requestId hres
  have hf : falsy targetUrl = true := by
    rcases hurl with h | h <;> rw [h] <;> rfl
  simp [mutateAttack, hr, hf]

/-- C11, as the code has it, at an input: the capture `1700000000000` and the
target url `""`. -/
theorem submit_empty_target_is_bad_request_witness :
    mutateAttack oneCaptureServer (some (.str "1700000000000")) (some (.str "")) 1700000000500
      = (oneCaptureServer, .badRequest) :=
  submit_empty_target_is_bad_request oneCaptureServer (some (.str "1700000000000"))
    (some (.str "")) 1700000000500 ⟨_, List.mem_singleton.2 rfl, rfl⟩ (Or.inr rfl)

/-- C11 as stated fails: with the capture `1700000000000` in the buffer and the
target url `""` the reply is not `notFound`. -/
theorem submit_empty_target_not_notFound :
    (oneCaptureServer.capturedRequests.find? (idMatches (some (.str "1700000000000")))).isSome
        = true
      ∧ (mutateAttack oneCaptureServer (some (.str "1700000000000")) (some (.str ""))
          1700000000500).2 ≠ .notFound := by
  constructor
  · rfl
  · decide

/-- After a successful submit the status endpoint finds, under the returned id,
a record with status `running`, no logs, no vulnerabilities, no progress and no
summary; an id that is not a key of the job store and does not name an
inherited property gets 404. -/
theorem status_after_submit (srv : Server) (requestId targetUrl : Option Json) (now : Nat)
    (jobId : String) (h : (mutateAttack srv requestId targetUrl now).2 = .started jobId) :
    mutationStatus (mutateAttack srv requestId targetUrl now).1 jobId = .job Job.fresh
      ∧ Job.fresh.status = "running" ∧ Job.fresh.logs = [] ∧ Job.fresh.vulnerabilities = []
      ∧ Job.fresh.progress = none ∧ Job.fresh.summary = none
      ∧ ∀ other : String, (mutateAttack srv requestId targetUrl now).1.mutationJobs.lookup other
          = none → other ∉ objectPrototypeNames →
          mutationStatus (mutateAttack srv requestId targetUrl now).1 other = .notFound := by
  refine ⟨?_, rfl, rfl, rfl, rfl, rfl, ?_⟩
  · unfold mutateAttack at h ⊢
    cases hf : srv.capturedRequests.find? (idMatches requestId) with
    | none => simp [hf] at h
    | some r =>
      by_cases ht : falsy targetUrl = true
      · simp [hf, ht] at h
      · simp only [hf, ht] at h ⊢
        simp only [Bool.false_eq_true, if_false, SubmitReply.started.injEq] at h ⊢
        subst h
        simp [mutationStatus, lookup_setOwn_self]
  · intro other hl hn
    simp [mutationStatus, hl, hn]

/-- C12, at the job id `constructor`. No job was ever allocated (the job store
is empty, before and after a successful submit at clock value 1700000000500
nothing is stored under that name), yet the status endpoint does not reply
404: the read `mutationJobs["constructor"]` finds the function inherited from
`Object.prototype`, which is truthy. -/
theorem status_of_inherited_name_is_not_notFound :
    oneCaptureServer.mutationJobs.lookup "constructor" = none
      ∧ mutationStatus oneCaptureServer "constructor" = .inherited "constructor"
      ∧ (mutateAttack oneCaptureServer (some (.str "1700000000000"))
          (some (.str "http://target/hook")) 1700000000500).2 = .started "1700000000500"
      ∧ mutationStatus (mutateAttack oneCaptureServer (some (.str "1700000000000"))
          (some (.str "http://target/hook")) 1700000000500).1 "constructor"
          = .inherited "constructor" := by
  refine ⟨rfl, rfl, by decide, rfl⟩

theorem applyEvent_vulnerabilities_grow (job : Job) (msg : Event) :
    job.vulnerabilities <+: (applyEvent job msg).vulnerabilities := by
  cases msg <;> simp [applyEvent]

theorem applyEvents_vulnerabilities_grow (msgs : List Event) :
    ∀ job : Job, job.vulnerabilities <+: (applyEvents job msgs).vulnerabilities := by
  induction msgs with
  | nil => intro job; exact List.prefix_refl _
  | cons m ms ih =>
    intro job
    exact (applyEvent_vulnerabilities_grow job m).trans (ih (applyEvent job m))

/-- C13. For every job record and every message applied by the event sink the
vulnerabilities before the message are a prefix of those after it; so for any
two successive runs of messages (a poll after the first, a poll after the
second) the earlier list is a prefix of the later one and is not longer; and
the same holds for the record kept in the job store under the job's id. -/
theorem vulnerabilities_only_grow :
    (∀ (job : Job) (msg : Event),
        job.vulnerabilities <+: (applyEvent job msg).vulnerabilities)
      ∧ (∀ (job : Job) (first second : List Event),
          (applyEvents job first).vulnerabilities
              <+: (applyEvents job (first ++ second)).vulnerabilities
            ∧ (applyEvents job first).vulnerabilities.length
              ≤ (applyEvents job (first ++ second)).vulnerabilities.length)
      ∧ (∀ (srv : Server) (now : Nat) (msg : Event) (job : Job),
          srv.mutationJobs.lookup (toString now) = some job →
          ∃ job', (onWorkerMessage srv now msg).mutationJobs.lookup (toString now) = some job'
            ∧ job.vulnerabilities <+: job'.vulnerabilities) := by
  refine ⟨applyEvent_vulnerabilities_grow, ?_, ?_⟩
  · intro job first second
    have h : (applyEvents job first).vulnerabilities
        <+: (applyEvents job (first ++ second)).vulnerabilities := by
      have := applyEvents_vulnerabilities_grow second (applyEvents job first)
      simpa [applyEvents, List.foldl_append] using this
    exact ⟨h, h.length_le⟩
  · intro srv now msg job hl
    refine ⟨applyEvent job msg, ?_, applyEvent_vulnerabilities_grow job msg⟩
    simp [onWorkerMessage, hl, lookup_setOwn_self]

theorem summary_iff_done_step (job : Job) (msg : Event)
    (h : job.summary.isSome = true ↔ job.status = "done") :
    (applyEvent job msg).summary.isSome = true ↔ (applyEvent job msg).status = "done" := by
  cases msg <;> simp [applyEvent, h]

/-- C14. In every job record reached from the fresh record by a sequence of
worker messages, the summary is present exactly when the status is `done`. -/
theorem summary_present_iff_done (msgs : List Event) :
    (applyEvents Job.fresh msgs).summary.isSome = true
      ↔ (applyEvents Job.fresh msgs).status = "done" := by
  have gen : ∀ (ms : List Event) (job : Job),
      (job.summary.isSome = true ↔ job.status = "done") →
      ((applyEvents job ms).summary.isSome = true ↔ (applyEvents job ms).status = "done") := by
    intro ms
    induction ms with
    | nil => intro job h; exact h
    | cons m ms ih => intro job h; exact ih (applyEvent job m) (summary_iff_done_step job m h)
  exact gen msgs Job.fresh (by decide)

theorem applyEvents_done_stays (msgs : List Event) :
    ∀ job : Job, job.status = "done" → (applyEvents job msgs).status = "done" := by
  induction msgs with
  | nil => intro job h; exact h
  | cons m ms ih =>
    intro job h
    refine ih (applyEvent job m) ?_
    cases m <;> simp [applyEvent, h]

/-- C15. A job record starts with status `running`; in every record reached
from it the status is `running` or `done`; a message changes the status only
if it is a `done` message and then the new status is `done`; and from a record
with status `done` no sequence of messages leads to another status. -/
theorem job_status_machine :
    Job.fresh.status = "running"
      ∧ (∀ msgs : List Event, (applyEvents Job.fresh msgs).status = "running"
          ∨ (applyEvents Job.fresh msgs).status = "done")
      ∧ (∀ (job : Job) (msg : Event), (applyEvent job msg).status ≠ job.status →
          (∃ sent found, msg = .done sent found) ∧ (applyEvent job msg).status = "done")
      ∧ (∀ (job : Job) (sent found : Nat), (applyEvent job (.done sent found)).status = "done")
      ∧ (∀ (job : Job) (msgs : List Event), job.status = "done" →
          (applyEvents job msgs).status = "done") := by
  refine ⟨rfl, ?_, ?_, fun _ _ _ => rfl, fun job msgs h => applyEvents_done_stays msgs job h⟩
  · intro msgs
    have gen : ∀ (ms : List Event) (job : Job),
        (job.status = "running" ∨ job.status = "done") →
        ((applyEvents job ms).status = "running" ∨ (applyEvents job ms).status = "done") := by
      intro ms
      induction ms with
      | nil => intro job h; exact h
      | cons m ms ih =>
        intro job h
        refine ih (applyEvent job m) ?_
        cases m <;> simp [applyEvent, h]
    exact gen msgs Job.fresh (Or.inl rfl)
  · intro job msg hne
    cases msg with
    | done sent found => exact ⟨⟨sent, found, rfl⟩, rfl⟩
    | vulnerability data => exact absurd rfl hne
    | info message => exact absurd rfl hne
    | progress sent total => exact absurd rfl hne

/-! ## The dispatcher: progress, completion and network failures -/

theorem progressData_append (xs ys : List Event) :
    progressData (xs ++ ys) = progressData xs ++ progressData ys := by
  induction xs with
  | nil => rfl
  | cons x xs ih => cases x <;> simp [progressData, ih]

theorem doneData_append (xs ys : List Event) :
    doneData (xs ++ ys) = doneData xs ++ doneData ys := by
  induction xs with
  | nil => rfl
  | cons x xs ih => cases x <;> simp [doneData, ih]

/-- What one iteration of the loop does to the counters, the progress messages
and the `done` messages. -/
theorem dispatchOne_effect (orig : CapturedRequest) (url : String) (total : Nat)
    (st : WorkerState) (m : Mutation) (o : Outcome) :
    (dispatchOne orig url total st m o).requestsSent
        = (if o.failed then st.requestsSent else st.requestsSent + 1)
      ∧ progressData (dispatchOne orig url total st m o).posted
        = progressData st.posted
          ++ (if o.failed = false ∧ (st.requestsSent + 1) % 10 = 0
              then [(st.requestsSent + 1, total)] else [])
      ∧ doneData (dispatchOne orig url total st m o).posted = doneData st.posted
      ∧ (dispatchOne orig url total st m o).issued = st.issued ++ [requestFor orig url m] := by
  cases o with
  | networkError => simp [dispatchOne, Outcome.failed]
  | response status data duration =>
    by_cases hs : isSuspicious status duration data m.payload = true <;>
      by_cases hp : (st.requestsSent + 1) % 10 = 0 <;>
      simp [dispatchOne, Outcome.failed, hs, hp, progressData_append, doneData_append,
        progressData, doneData]

theorem dispatchAll_sent_mono (orig : CapturedRequest) (url : String) (total : Nat)
    (net : Nat → Outcome) (ms : List Mutation) :
    ∀ (i : Nat) (st : WorkerState),
      st.requestsSent ≤ (dispatchAll orig url total net i ms st).requestsSent := by
  induction ms with
  | nil => intro i st; exact le_refl _
  | cons m ms ih =>
    intro i st
    rw [dispatchAll]
    refine le_trans ?_ (ih (i + 1) _)
    rw [(dispatchOne_effect orig url total st m (net i)).1]
    split <;> omega

/-- The progress messages added by the loop are the multiples of 10 passed by
the counter `requestsSent`, in increasing order, each with `total`. -/
theorem progressData_dispatchAll (orig : CapturedRequest) (url : String) (total : Nat)
    (net : Nat → Outcome) (ms : List Mutation) :
    ∀ (i : Nat) (st : WorkerState),
      progressData (dispatchAll orig url total net i ms st).posted
        = progressData st.posted
          ++ (List.range' (st.requestsSent / 10 + 1)
                ((dispatchAll orig url total net i ms st).requestsSent / 10
                  - st.requestsSent / 10)).map (fun k => (10 * k, total)) := by
  induction ms with
  | nil => intro i st; simp [dispatchAll]
  | cons m ms ih =>
    intro i st
    rw [dispatchAll, ih (i + 1)]
    obtain ⟨hsent, hprog, _, _⟩ := dispatchOne_effect orig url total st m (net i)
    have hmono := dispatchAll_sent_mono orig url total net ms (i + 1)
      (dispatchOne orig url total st m (net i))
    generalize (dispatchAll orig url total net (i + 1) ms
      (dispatchOne orig url total st m (net i))).requestsSent = final at hmono ⊢
    rw [hprog, hsent] at *
    rw [List.append_assoc]
    congr 1
    by_cases hf : (net i).failed = true
    · simp [hf]
    · simp only [hf, Bool.false_eq_true, if_false] at hmono ⊢
      by_cases hp : (st.requestsSent + 1) % 10 = 0
      · have h1 : (st.requestsSent + 1) / 10 = st.requestsSent / 10 + 1 := by omega
        have h2 : final / 10 - st.requestsSent / 10
            = (final / 10 - (st.requestsSent / 10 + 1)) + 1 := by
          have : (st.requestsSent + 1) / 10 ≤ final / 10 := Nat.div_le_div_right hmono
          omega
        have h3 : st.requestsSent + 1 = 10 * (st.requestsSent / 10 + 1) := by omega
        simp only [hp, and_self, if_true, h1, true_and]
        rw [h2, List.range'_succ, List.map_cons, ← h3]
        rfl
      · have h1 : (st.requestsSent + 1) / 10 = st.requestsSent / 10 := by omega
        simp [hp, h1]

theorem doneData_dispatchAll (orig : CapturedRequest) (url : String) (total : Nat)
    (net : Nat → Outcome) (ms : List Mutation) :
    ∀ (i : Nat) (st : WorkerState),
      doneData (dispatchAll orig url total net i ms st).posted = doneData st.posted := by
  induction ms with
  | nil => intro i st; rfl
  | cons m ms ih =>
    intro i st
    rw [dispatchAll, ih (i + 1), (dispatchOne_effect orig url total st m (net i)).2.2.1]

theorem issued_dispatchAll (orig : CapturedRequest) (url : String) (total : Nat)
    (net : Nat → Outcome) (ms : List Mutation) :
    ∀ (i : Nat) (st : WorkerState),
      (dispatchAll orig url total net i ms st).issued
        = st.issued ++ ms.map (requestFor orig url) := by
  induction ms with
  | nil => intro i st; simp [dispatchAll]
  | cons m ms ih =>
    intro i st
    rw [dispatchAll, ih (i + 1), (dispatchOne_effect orig url total st m (net i)).2.2.2]
    simp

theorem posted_dispatchAll (orig : CapturedRequest) (url : String) (total : Nat)
    (net : Nat → Outcome) (ms : List Mutation) :
    ∀ (i : Nat) (st : WorkerState),
      ∃ ext, (dispatchAll orig url total net i ms st).posted = st.posted ++ ext := by
  induction ms with
  | nil => intro i st; exact ⟨[], by simp [dispatchAll]⟩
  | cons m ms ih =>
    intro i st
    obtain ⟨ext, he⟩ := ih (i + 1) (dispatchOne orig url total st m (net i))
    have h1 : ∃ e1, (dispatchOne orig url total st m (net i)).posted = st.posted ++ e1 := by
      cases net i with
      | networkError => exact ⟨[], by simp [dispatchOne]⟩
      | response status data duration =>
        by_cases hs : isSuspicious status duration data m.payload = true <;>
          by_cases hp : (st.requestsSent + 1) % 10 = 0 <;>
          simp [dispatchOne, hs, hp]
    obtain ⟨e1, h1⟩ := h1
    exact ⟨e1 ++ ext, by rw [dispatchAll, he, h1, List.append_assoc]⟩

/-- When the generator returns, the run posts `info`, then the messages of the
loop, then one `done` with the final counters, and no other `done`. -/
theorem runAttack_of_ok (orig : CapturedRequest) (url : String) (net : Nat → Outcome)
    (ms : List Mutation) (hgen : generateMutations orig.body orig.body "" = .ok ms) :
    (runAttack orig url net).posted.getLast?
        = some (.done (runAttack orig url net).requestsSent
            (runAttack orig url net).vulnerabilitiesFound)
      ∧ doneData (runAttack orig url net).posted
        = [((runAttack orig url net).requestsSent, (runAttack orig url net).vulnerabilitiesFound)]
      ∧ (runAttack orig url net).posted.head? = some (.info (infoMessage ms.length))
      ∧ progressData (runAttack orig url net).posted
        = (List.range' 1 ((runAttack orig url net).requestsSent / 10)).map
            (fun k => (10 * k, ms.length))
      ∧ (runAttack orig url net).issued = ms.map (requestFor orig url) := by
  have hd := doneData_dispatchAll orig url ms.length net ms 0
    { WorkerState.initial with posted := [.info (infoMessage ms.length)] }
  have hp := progressData_dispatchAll orig url ms.length net ms 0
    { WorkerState.initial with posted := [.info (infoMessage ms.length)] }
  have hi := issued_dispatchAll orig url ms.length net ms 0
    { WorkerState.initial with posted := [.info (infoMessage ms.length)] }
  simp only [WorkerState.initial, doneData, progressData, List.nil_append, Nat.zero_div,
    Nat.zero_add, Nat.sub_zero] at hd hp hi
  refine ⟨?_, ?_, ?_, ?_, ?_⟩
  · simp only [runAttack, hgen, List.getLast?_concat]
  · simp only [runAttack, hgen, doneData_append, WorkerState.initial, hd, doneData,
      List.nil_append]
  · obtain ⟨ext, he⟩ := posted_dispatchAll orig url ms.length net ms 0
      { WorkerState.initial with posted := [.info (infoMessage ms.length)] }
    simp only [WorkerState.initial] at he
    simp only [runAttack, hgen, WorkerState.initial, he]
    rfl
  · simp only [runAttack, hgen, progressData_append, WorkerState.initial, hp, progressData,
      List.append_nil]
  · simp only [runAttack, hgen, WorkerState.initial, hi]

theorem mem_doneData (sent found : Nat) (evs : List Event) :
    Event.done sent found ∈ evs → (sent, found) ∈ doneData evs := by
  induction evs with
  | nil => intro h; cases h
  | cons e es ih =>
    intro h
    rcases List.mem_cons.1 h with h1 | h1
    · subst h1; simp [doneData]
    · have := ih h1
      cases e <;> simp [doneData, this]

/-- C16. In every run the progress messages are, in this order, those with
`sent` = 10, 20, ..., 10 * (totalSent / 10) (integer division), where totalSent
is the final value of `requestsSent`, the value that the `done` message carries;
the values of `sent` increase strictly, so each occurs once; and each message
carries `total` = the number of generated candidates.  A run whose generator
throws posts no progress message. -/
theorem progress_events_every_ten (originalReq : CapturedRequest) (targetUrl : String)
    (net : Nat → Outcome) :
    progressData (runAttack originalReq targetUrl net).posted
        = (List.range' 1 ((runAttack originalReq targetUrl net).requestsSent / 10)).map
            (fun k => (10 * k,
              match generateMutations originalReq.body originalReq.body "" with
              | .ok mutations => mutations.length
              | .error _ => 0))
      ∧ List.Pairwise (fun a b => a.1 < b.1)
          (progressData (runAttack originalReq targetUrl net).posted)
      ∧ (∀ totalSent found, Event.done totalSent found
            ∈ (runAttack originalReq targetUrl net).posted →
          totalSent = (runAttack originalReq targetUrl net).requestsSent) := by
  have main : progressData (runAttack originalReq targetUrl net).posted
      = (List.range' 1 ((runAttack originalReq targetUrl net).requestsSent / 10)).map
          (fun k => (10 * k,
            match generateMutations originalReq.body originalReq.body "" with
            | .ok mutations => mutations.length
            | .error _ => 0)) := by
    cases hgen : generateMutations originalReq.body originalReq.body "" with
    | error e => simp [runAttack, hgen, WorkerState.initial, progressData]
    | ok ms => exact (runAttack_of_ok originalReq targetUrl net ms hgen).2.2.2.1
  refine ⟨main, ?_, ?_⟩
  · rw [main, List.pairwise_map]
    refine (List.pairwise_lt_range' 1 _).imp ?_
    intro a b hab
    show 10 * a < 10 * b
    omega
  · intro totalSent found hmem
    cases hgen : generateMutations originalReq.body originalReq.body "" with
    | error e => simp [runAttack, hgen, WorkerState.initial] at hmem
    | ok ms =>
      have := mem_doneData totalSent found _ hmem
      rw [(runAttack_of_ok originalReq targetUrl net ms hgen).2.1] at this
      simp only [List.mem_singleton, Prod.mk.injEq] at this
      exact this.1

set_option maxRecDepth 100000 in
/-- C16, at an input: the body `{"user": {"name": "a"}}` against a target that
always answers; 26 requests are sent and the progress messages are those for 10
and 20, each with total 26. -/
theorem progress_events_every_ten_witness :
    progressData (runAttack ⟨"1700000000000", "10:00:00", "POST", [], userBody⟩
        "http://target/hook" always500).posted = [(10, 26), (20, 26)] :=
  (progress_events_every_ten ⟨"1700000000000", "10:00:00", "POST", [], userBody⟩
    "http://target/hook" always500).1.trans rfl

/-- C17, at the body `{"a.b": 1}`. Whatever the transport does, the run posts
no message at all, so its trace has no `done` message: `generateMutations`
throws (see `generator_throws_on_dotted_key`) before the first `postMessage`. -/
theorem run_posts_no_done_on_dotted_key (id timestamp method targetUrl : String)
    (headers : List (String × String)) (net : Nat → Outcome) :
    (runAttack ⟨id, timestamp, method, headers, dottedKeyBody⟩ targetUrl net).posted = []
      ∧ doneData (runAttack ⟨id, timestamp, method, headers, dottedKeyBody⟩ targetUrl net).posted
          = [] := by
  constructor <;> rfl

/-- C18. For every candidate list, start state and transport, the loop issues
exactly one request per candidate, in candidate order, whatever fails; an
iteration whose request fails adds that request to the issued ones and changes
nothing else (neither counter, no message), and no finding is reported for it;
so the requests issued by a run are those of all generated candidates. -/
theorem network_failures_do_not_abort :
    (∀ (originalReq : CapturedRequest) (targetUrl : String) (total : Nat)
        (net : Nat → Outcome) (mutations : List Mutation) (i : Nat) (st : WorkerState),
        (dispatchAll originalReq targetUrl total net i mutations st).issued
          = st.issued ++ mutations.map (requestFor originalReq targetUrl))
      ∧ (∀ (originalReq : CapturedRequest) (targetUrl : String) (total : Nat)
          (st : WorkerState) (mutation : Mutation),
          dispatchOne originalReq targetUrl total st mutation .networkError
            = { requestsSent := st.requestsSent,
                vulnerabilitiesFound := st.vulnerabilitiesFound,
                posted := st.posted,
                issued := st.issued ++ [requestFor originalReq targetUrl mutation] })
      ∧ (∀ mutation : Mutation, findingFor mutation .networkError = none)
      ∧ (∀ (originalReq : CapturedRequest) (targetUrl : String) (net : Nat → Outcome)
          (mutations : List Mutation),
          generateMutations originalReq.body originalReq.body "" = .ok mutations →
          (runAttack originalReq targetUrl net).issued
            = mutations.map (requestFor originalReq targetUrl)) := by
  refine ⟨?_, ?_, fun _ => rfl, ?_⟩
  · intro orig url total net ms i st
    exact issued_dispatchAll orig url total net ms i st
  · intro orig url total st m
    rfl
  · intro orig url net ms hgen
    exact (runAttack_of_ok orig url net ms hgen).2.2.2.2

/-- C18, at an input: the body `{"user": {"name": "a"}}` against a transport
that fails on every second request; all 26 candidates are issued, in order. -/
theorem network_failures_do_not_abort_witness :
    (runAttack ⟨"1700000000000", "10:00:00", "POST", [], userBody⟩ "http://target/hook"
        flakyNet).issued
      = (specCandidates userBody).map
          (requestFor ⟨"1700000000000", "10:00:00", "POST", [], userBody⟩ "http://target/hook") :=
  network_failures_do_not_abort.2.2.2 ⟨"1700000000000", "10:00:00", "POST", [], userBody⟩
    "http://target/hook" flakyNet (specCandidates userBody) rfl

/-- C19, at the body `{"user": {"first.name": "a"}}`. The recursion builds the
path `user.first.name` for the key `first.name`; `setByPath` splits it into
`user`, `first`, `name`; the intermediate key `first` does not exist in the
object under `user`, the read gives `undefined` and the write of `name` throws
a `TypeError`, so `generateMutations` fails. -/
theorem setByPath_cannot_navigate_dotted_key :
    joinPath "user" "first.name" = "user.first.name"
      ∧ splitPath "user.first.name" = ["user", "first", "name"]
      ∧ getProp nestedDottedKeyBody "user" = .ok (some (.obj [("first.name", .str "a")]))
      ∧ getProp (.obj [("first.name", .str "a")]) "first" = .ok none
      ∧ setByPath (clone nestedDottedKeyBody) "user.first.name" (.str "; ls -la")
          = .error .typeError
      ∧ generateMutations nestedDottedKeyBody nestedDottedKeyBody "" = .error .typeError := by
  refine ⟨rfl, rfl, rfl, rfl, rfl, rfl⟩

/-- C20. The catalog has 13 entries; their type tags are, without repetition,
the six classes SQLi, NoSQLi, CMDi, XSS, Overflow and FormatString; the payload
of an entry is a string exactly when its class is not NoSQLi; and the three
NoSQLi payloads are objects with one property. -/
theorem catalog_shape :
    ATTACK_VECTORS.length = 13
      ∧ (ATTACK_VECTORS.map (fun v => v.type)).dedup
          = ["SQLi", "NoSQLi", "CMDi", "XSS", "Overflow", "FormatString"]
      ∧ ((ATTACK_VECTORS.map (fun v => v.type)).dedup).length = 6
      ∧ ATTACK_VECTORS.map (fun v => (v.type, v.payload.isString))
          = [("SQLi", true), ("SQLi", true), ("SQLi", true),
             ("NoSQLi", false), ("NoSQLi", false), ("NoSQLi", false),
             ("CMDi", true), ("CMDi", true), ("CMDi", true),
             ("XSS", true), ("XSS", true), ("Overflow", true), ("FormatString", true)]
      ∧ (∀ v ∈ ATTACK_VECTORS, v.payload.isString = (v.type != "NoSQLi"))
      ∧ (ATTACK_VECTORS.filter (fun v => v.type == "NoSQLi")).map (fun v => v.payload)
          = [.obj [("$ne", .null)], .obj [("$gt", .str "")],
             .obj [("$where", .str "sleep(1000)")]] := by
  refine ⟨rfl, by decide, by decide, rfl, by decide, rfl⟩

/-! ## The event sink as a step function -/

/-- C25. The event sink is this step function on a job record: a
`vulnerability` message appends its data to `vulnerabilities` and changes
nothing else; an `info` or `progress` message replaces the progress snapshot by
that message and changes nothing else, so `logs` stays as it is (empty from the
fresh record on, over any sequence of messages); a `done` message sets the
status to `done` and the summary to the message and changes nothing else; a
message with any other status tag leaves the record unchanged. -/
theorem event_sink_step :
    (∀ (job : Job) (data : Finding),
        applyMessage job (.event (.vulnerability data))
          = { status := job.status, logs := job.logs,
              vulnerabilities := job.vulnerabilities ++ [data],
              progress := job.progress, summary := job.summary })
      ∧ (∀ (job : Job) (message : String),
          applyMessage job (.event (.info message))
            = { status := job.status, logs := job.logs, vulnerabilities := job.vulnerabilities,
                progress := some (.info message), summary := job.summary })
      ∧ (∀ (job : Job) (sent total : Nat),
          applyMessage job (.event (.progress sent total))
            = { status := job.status, logs := job.logs, vulnerabilities := job.vulnerabilities,
                progress := some (.progress sent total), summary := job.summary })
      ∧ (∀ (job : Job) (sent found : Nat),
          applyMessage job (.event (.done sent found))
            = { status := "done", logs := job.logs, vulnerabilities := job.vulnerabilities,
                progress := job.progress, summary := some (.done sent found) })
      ∧ (∀ (job : Job) (status : String)
          (hother : status ≠ "done" ∧ status ≠ "vulnerability" ∧ status ≠ "info"
            ∧ status ≠ "progress"),
          applyMessage job (.other status hother) = job)
      ∧ (∀ (job : Job) (e : Event), applyMessage job (.event e) = applyEvent job e)
      ∧ (∀ msgs : List Message, (msgs.foldl applyMessage Job.fresh).logs = []) := by
  refine ⟨fun _ _ => rfl, fun _ _ => rfl, fun _ _ _ => rfl, fun _ _ _ => rfl, ?_, ?_, ?_⟩
  · intro job status h
    simp [applyMessage, Message.status, h.1, h.2.1, h.2.2.1, h.2.2.2]
  · intro job e
    cases e <;> rfl
  · intro msgs
    have gen : ∀ (ms : List Message) (job : Job), (ms.foldl applyMessage job).logs = job.logs := by
      intro ms
      induction ms with
      | nil => intro job; rfl
      | cons m ms ih =>
        intro job
        rw [List.foldl_cons, ih]
        unfold applyMessage
        split
        · rfl
        · split
          · rfl
          · split <;> rfl
    exact gen msgs Job.fresh

/-! ## The dispatcher: counters -/

theorem dispatchOne_found (orig : CapturedRequest) (url : String) (total : Nat)
    (st : WorkerState) (m : Mutation) (o : Outcome) :
    (dispatchOne orig url total st m o).vulnerabilitiesFound
      = st.vulnerabilitiesFound + (findingFor m o).toList.length
      ∧ (findingFor m o).toList.length ≤ (if o.failed then 0 else 1) := by
  cases o with
  | networkError => simp [dispatchOne, findingFor, Outcome.failed]
  | response status data duration =>
    by_cases hs : isSuspicious status duration data m.payload = true <;>
      by_cases hp : (st.requestsSent + 1) % 10 = 0 <;>
      simp [dispatchOne, findingFor, Outcome.failed, hs, hp]

/-- The counters after the loop: `requestsSent` has grown by the number of
responses, `vulnerabilitiesFound` by the number of findings, and there are at
most as many findings as responses. -/
theorem counters_dispatchAll (orig : CapturedRequest) (url : String) (total : Nat)
    (net : Nat → Outcome) (ms : List Mutation) :
    ∀ (i : Nat) (st : WorkerState),
      (dispatchAll orig url total net i ms st).requestsSent
          = st.requestsSent + responsesIn net i ms.length
        ∧ (dispatchAll orig url total net i ms st).vulnerabilitiesFound
          = st.vulnerabilitiesFound + (expectedFindings net i ms).length
        ∧ (expectedFindings net i ms).length ≤ responsesIn net i ms.length := by
  induction ms with
  | nil => intro i st; simp [dispatchAll, responsesIn, expectedFindings]
  | cons m ms ih =>
    intro i st
    obtain ⟨h1, h2, h3⟩ := ih (i + 1) (dispatchOne orig url total st m (net i))
    obtain ⟨hf, hle⟩ := dispatchOne_found orig url total st m (net i)
    have hs := (dispatchOne_effect orig url total st m (net i)).1
    have hr : responsesIn net i (ms.length + 1)
        = (if (net i).failed then 0 else 1) + responsesIn net (i + 1) ms.length := by
      simp only [responsesIn, List.range'_succ, List.countP_cons]
      cases (net i).failed <;> simp; omega
    have he : (expectedFindings net i (m :: ms)).length
        = (findingFor m (net i)).toList.length + (expectedFindings net (i + 1) ms).length := by
      simp only [expectedFindings, List.enumFrom_cons, List.filterMap_cons]
      cases findingFor m (net i) <;> simp; omega
    rw [dispatchAll, h1, h2, hs, hf, List.length_cons, hr, he]
    refine ⟨?_, ?_, ?_⟩
    · cases (net i).failed <;> simp; omega
    · omega
    · omega

theorem dispatchAll_append (orig : CapturedRequest) (url : String) (total : Nat)
    (net : Nat → Outcome) (xs ys : List Mutation) :
    ∀ (i : Nat) (st : WorkerState),
      dispatchAll orig url total net i (xs ++ ys) st
        = dispatchAll orig url total net (i + xs.length) ys
            (dispatchAll orig url total net i xs st) := by
  induction xs with
  | nil => intro i st; simp [dispatchAll]
  | cons x xs ih =>
    intro i st
    have h := ih (i + 1) (dispatchOne orig url total st x (net i))
    rw [show i + 1 + xs.length = i + (xs.length + 1) by omega] at h
    simp only [List.cons_append, dispatchAll, List.length_cons]
    exact h

theorem responsesIn_le (net : Nat → Outcome) (i n : Nat) : responsesIn net i n ≤ n := by
  unfold responsesIn
  exact le_trans (List.countP_le_length _) (by simp)

theorem responsesIn_eq_iff (net : Nat → Outcome) (n : Nat) :
    responsesIn net 0 n = n ↔ ∀ i, i < n → (net i).failed = false := by
  unfold responsesIn
  have hlen : (List.range' 0 n).length = n := by simp
  constructor
  · intro h i hi
    have h' : (List.range' 0 n).countP (fun j => !(net j).failed) = (List.range' 0 n).length := by
      rw [h, hlen]
    rw [List.countP_eq_length] at h'
    have := h' i (by simp [List.mem_range']; omega)
    simpa using this
  · intro h
    have h' : (List.range' 0 n).countP (fun j => !(net j).failed) = (List.range' 0 n).length := by
      rw [List.countP_eq_length]
      intro j hj
      have hj' : j < n := by
        simp [List.mem_range'] at hj
        omega
      simp [h j hj']
    rw [h', hlen]

/-- C28. For a run whose generator returns `mutations`: after any number `k`
of iterations of the loop the counters satisfy `vulnerabilitiesFound ≤
requestsSent ≤ k ≤` number of candidates, `requestsSent` being the number of
responses received so far; the same holds at the end of the run, whose `done`
message carries the two counters; and `requestsSent` equals the number of
candidates exactly when no request failed. -/
theorem counters_invariant (originalReq : CapturedRequest) (targetUrl : String)
    (net : Nat → Outcome) (mutations : List Mutation)
    (hgen : generateMutations originalReq.body originalReq.body "" = .ok mutations) :
    (∀ k, k ≤ mutations.length →
        (dispatchAll originalReq targetUrl mutations.length net 0 (mutations.take k)
            (WorkerState.afterInfo mutations.length)).vulnerabilitiesFound
          ≤ (dispatchAll originalReq targetUrl mutations.length net 0 (mutations.take k)
              (WorkerState.afterInfo mutations.length)).requestsSent
        ∧ (dispatchAll originalReq targetUrl mutations.length net 0 (mutations.take k)
              (WorkerState.afterInfo mutations.length)).requestsSent = responsesIn net 0 k
        ∧ responsesIn net 0 k ≤ k
        ∧ dispatchAll originalReq targetUrl mutations.length net 0 mutations
              (WorkerState.afterInfo mutations.length)
            = dispatchAll originalReq targetUrl mutations.length net k (mutations.drop k)
                (dispatchAll originalReq targetUrl mutations.length net 0 (mutations.take k)
                  (WorkerState.afterInfo mutations.length)))
      ∧ (runAttack originalReq targetUrl net).vulnerabilitiesFound
          ≤ (runAttack originalReq targetUrl net).requestsSent
      ∧ (runAttack originalReq targetUrl net).requestsSent ≤ mutations.length
      ∧ (runAttack originalReq targetUrl net).requestsSent = responsesIn net 0 mutations.length
      ∧ (runAttack originalReq targetUrl net).posted.getLast?
          = some (.done (runAttack originalReq targetUrl net).requestsSent
              (runAttack originalReq targetUrl net).vulnerabilitiesFound)
      ∧ ((runAttack originalReq targetUrl net).requestsSent = mutations.length
          ↔ ∀ i, i < mutations.length → (net i).failed = false) := by
  have hrun : (runAttack originalReq targetUrl net).requestsSent
        = (dispatchAll originalReq targetUrl mutations.length net 0 mutations
            (WorkerState.afterInfo mutations.length)).requestsSent
      ∧ (runAttack originalReq targetUrl net).vulnerabilitiesFound
        = (dispatchAll originalReq targetUrl mutations.length net 0 mutations
            (WorkerState.afterInfo mutations.length)).vulnerabilitiesFound := by
    simp [runAttack, hgen, WorkerState.afterInfo]
  obtain ⟨h1, h2, h3⟩ := counters_dispatchAll originalReq targetUrl mutations.length net
    mutations 0 (WorkerState.afterInfo mutations.length)
  rw [show (WorkerState.afterInfo mutations.length).requestsSent = 0 from rfl,
    Nat.zero_add] at h1
  rw [show (WorkerState.afterInfo mutations.length).vulnerabilitiesFound = 0 from rfl,
    Nat.zero_add] at h2
  have hsent : (runAttack originalReq targetUrl net).requestsSent
      = responsesIn net 0 mutations.length := by
    rw [hrun.1]; exact h1
  refine ⟨?_, ?_, ?_, hsent, (runAttack_of_ok originalReq targetUrl net mutations hgen).1, ?_⟩
  · intro k hk
    obtain ⟨k1, k2, k3⟩ := counters_dispatchAll originalReq targetUrl mutations.length net
      (mutations.take k) 0 (WorkerState.afterInfo mutations.length)
    have hlen : (mutations.take k).length = k := by simp [hk]
    rw [show (WorkerState.afterInfo mutations.length).requestsSent = 0 from rfl,
      Nat.zero_add, hlen] at k1
    rw [show (WorkerState.afterInfo mutations.length).vulnerabilitiesFound = 0 from rfl,
      Nat.zero_add] at k2
    rw [hlen] at k3
    refine ⟨?_, k1, responsesIn_le net 0 k, ?_⟩
    · rw [k1, k2]; exact k3
    · have := dispatchAll_append originalReq targetUrl mutations.length net (mutations.take k)
        (mutations.drop k) 0 (WorkerState.afterInfo mutations.length)
      rw [List.take_append_drop, hlen, Nat.zero_add] at this
      exact this
  · rw [hrun.1, hrun.2, h1, h2]; exact h3
  · rw [hsent]; exact responsesIn_le net 0 _
  · rw [hsent]; exact responsesIn_eq_iff net mutations.length

/-- C28, at an input: the body `{"user": {"name": "a"}}` against a transport
that fails on every second request; 13 of the 26 candidates get a response. -/
theorem counters_invariant_witness :
    (runAttack ⟨"1700000000000", "10:00:00", "POST", [], userBody⟩ "http://target/hook"
        flakyNet).requestsSent = responsesIn flakyNet 0 26
      ∧ responsesIn flakyNet 0 26 = 13 :=
  ⟨(counters_invariant ⟨"1700000000000", "10:00:00", "POST", [], userBody⟩ "http://target/hook"
      flakyNet (specCandidates userBody) rfl).2.2.2.1, by decide⟩

theorem applyEvents_vulnerabilities (evs : List Event) :
    ∀ job : Job,
      (applyEvents job evs).vulnerabilities = job.vulnerabilities ++ vulnerabilityData evs := by
  induction evs with
  | nil => intro job; simp [applyEvents, vulnerabilityData]
  | cons e es ih =>
    intro job
    have := ih (applyEvent job e)
    simp only [applyEvents, List.foldl_cons] at this ⊢
    rw [this]
    cases e <;> simp [applyEvent, vulnerabilityData]

theorem applyEvents_concat_done (job : Job) (evs : List Event) (sent found : Nat) :
    (applyEvents job (evs ++ [.done sent found])).status = "done"
      ∧ (applyEvents job (evs ++ [.done sent found])).summary = some (.done sent found) := by
  simp [applyEvents, List.foldl_append, applyEvent]

/-- C29. For a run whose generator returns, applying the messages of the run
in order to a fresh job record gives a record with status `done`, with the
summary set to the `done` message of the run, whose vulnerabilities are the
data of the `vulnerability` messages of the run in the order posted, as many
as the `vulnerabilitiesFound` of the summary. -/
theorem sink_agrees_with_run (originalReq : CapturedRequest) (targetUrl : String)
    (net : Nat → Outcome) (mutations : List Mutation)
    (hgen : generateMutations originalReq.body originalReq.body "" = .ok mutations) :
    (applyEvents Job.fresh (runAttack originalReq targetUrl net).posted).status = "done"
      ∧ (applyEvents Job.fresh (runAttack originalReq targetUrl net).posted).summary
          = some (.done (runAttack originalReq targetUrl net).requestsSent
              (runAttack originalReq targetUrl net).vulnerabilitiesFound)
      ∧ (applyEvents Job.fresh (runAttack originalReq targetUrl net).posted).vulnerabilities
          = vulnerabilityData (runAttack originalReq targetUrl net).posted
      ∧ (applyEvents Job.fresh
            (runAttack originalReq targetUrl net).posted).vulnerabilities.length
          = (runAttack originalReq targetUrl net).vulnerabilitiesFound
      ∧ ((runAttack originalReq targetUrl net).posted.map Message.event).foldl applyMessage
            Job.fresh
          = applyEvents Job.fresh (runAttack originalReq targetUrl net).posted := by
  obtain ⟨hlast, _, _, _, _⟩ := runAttack_of_ok originalReq targetUrl net mutations hgen
  have hposted : ∃ pre, (runAttack originalReq targetUrl net).posted
      = pre ++ [.done (runAttack originalReq targetUrl net).requestsSent
          (runAttack originalReq targetUrl net).vulnerabilitiesFound] := by
    simp only [runAttack, hgen]
    exact ⟨_, rfl⟩
  obtain ⟨pre, hpre⟩ := hposted
  have hfound : (runAttack originalReq targetUrl net).vulnerabilitiesFound
      = (vulnerabilityData (runAttack originalReq targetUrl net).posted).length := by
    obtain ⟨_, h2, _⟩ := counters_dispatchAll originalReq targetUrl mutations.length net
      mutations 0 (WorkerState.afterInfo mutations.length)
    rw [show (WorkerState.afterInfo mutations.length).vulnerabilitiesFound = 0 from rfl,
      Nat.zero_add] at h2
    have hv := vulnerabilityData_dispatchAll originalReq targetUrl mutations.length net
      mutations 0 (WorkerState.afterInfo mutations.length)
    simp only [runAttack, hgen, vulnerabilityData_append]
    simp only [WorkerState.afterInfo] at h2 hv
    rw [h2, hv]
    simp [vulnerabilityData, WorkerState.initial]
  have hvul := applyEvents_vulnerabilities (runAttack originalReq targetUrl net).posted Job.fresh
  simp only [Job.fresh, List.nil_append] at hvul
  refine ⟨?_, ?_, hvul, ?_, ?_⟩
  · rw [hpre]; exact (applyEvents_concat_done _ pre _ _).1
  · rw [hpre]
    exact (applyEvents_concat_done _ pre _ _).2
  · rw [show (applyEvents Job.fresh (runAttack originalReq targetUrl net).posted).vulnerabilities
        = vulnerabilityData (runAttack originalReq targetUrl net).posted from hvul, ← hfound]
  · generalize (runAttack originalReq targetUrl net).posted = evs
    have gen : ∀ (es : List Event) (job : Job),
        (es.map Message.event).foldl applyMessage job = applyEvents job es := by
      intro es
      induction es with
      | nil => intro job; rfl
      | cons e es ih =>
        intro job
        have he : applyMessage job (.event e) = applyEvent job e := by cases e <;> rfl
        simp only [List.map_cons, List.foldl_cons, he, ih, applyEvents]
    exact gen evs Job.fresh

/-! ## The order of the candidates -/

theorem mutateField_labels (root : Json) (field : String) (vectors : List AttackVector) :
    ∀ here, mutateField root field vectors = .ok here →
      here.map Mutation.label = vectors.map (fun vector => (field, vector.type, vector.payload)) := by
  induction vectors with
  | nil =>
    intro here h
    simp only [mutateField, Except.ok.injEq] at h
    subst h; rfl
  | cons v vs ih =>
    intro here h
    simp only [mutateField] at h
    split at h
    · cases h
    · split at h
      · cases h
      · rename_i more hmore
        simp only [Except.ok.injEq] at h
        subst h
        simp [Mutation.label, ih more hmore]

mutual
theorem generateMutations_labels (root : Json) :
    ∀ (t : Json) (path : String) (ms : List Mutation),
      generateMutations root t path = .ok ms →
      ms.map Mutation.label = (walkFields t path).flatMap fieldLabels
  | .obj props, path, ms, h => by
    rw [generateMutations] at h
    rw [walkFields]
    exact genProps_labels root props path ms h
  | .arr items, path, ms, h => by
    rw [generateMutations] at h
    rw [walkFields]
    exact genItems_labels root items path 0 ms h
  | .null, _, ms, h => by
    simp only [generateMutations, Except.ok.injEq] at h; subst h; simp [walkFields]
  | .bool _, _, ms, h => by
    simp only [generateMutations, Except.ok.injEq] at h; subst h; simp [walkFields]
  | .num _, _, ms, h => by
    simp only [generateMutations, Except.ok.injEq] at h; subst h; simp [walkFields]
  | .str _, _, ms, h => by
    simp only [generateMutations, Except.ok.injEq] at h; subst h; simp [walkFields]
theorem genProps_labels (root : Json) :
    ∀ (props : List (String × Json)) (path : String) (ms : List Mutation),
      genProps root path props = .ok ms →
      ms.map Mutation.label = (walkFieldsProps path props).flatMap fieldLabels
  | [], _, ms, h => by
    simp only [genProps, Except.ok.injEq] at h; subst h; simp [walkFieldsProps]
  | (key, value) :: rest, path, ms, h => by
    simp only [genProps] at h
    split at h
    · cases h
    · rename_i deeper hdeeper
      split at h
      · cases h
      · rename_i here hhere
        split at h
        · cases h
        · rename_i more hmore
          simp only [Except.ok.injEq] at h
          subst h
          have h1 := generateMutations_labels root value (joinPath path key) deeper hdeeper
          have h2 := mutateField_labels root (joinPath path key) ATTACK_VECTORS here hhere
          have h3 := genProps_labels root rest path more hmore
          simp [walkFieldsProps, List.flatMap_append, h1, h2, h3, fieldLabels]
theorem genItems_labels (root : Json) :
    ∀ (items : List Json) (path : String) (i : Nat) (ms : List Mutation),
      genItems root path i items = .ok ms →
      ms.map Mutation.label = (walkFieldsItems path i items).flatMap fieldLabels
  | [], _, _, ms, h => by
    simp only [genItems, Except.ok.injEq] at h; subst h; simp [walkFieldsItems]
  | value :: rest, path, i, ms, h => by
    simp only [genItems] at h
    split at h
    · cases h
    · rename_i deeper hdeeper
      split at h
      · cases h
      · rename_i here hhere
        split at h
        · cases h
        · rename_i more hmore
          simp only [Except.ok.injEq] at h
          subst h
          have h1 := generateMutations_labels root value (joinPath path (toString i)) deeper
            hdeeper
          have h2 := mutateField_labels root (joinPath path (toString i)) ATTACK_VECTORS here
            hhere
          have h3 := genItems_labels root rest path (i + 1) more hmore
          simp [walkFieldsItems, List.flatMap_append, h1, h2, h3, fieldLabels]
end

/-- C26. Whenever the generator returns, its candidates come in depth-first
post-order: their fields, types and payloads are, for each field of the
post-order walk (for each child key in enumeration order: the fields strictly
below the child, then the child's field), the 13 catalog entries in catalog
order.  At an object with first property `key: value` under path `p` the walk
is the walk of `value` under `p.key`, then `p.key`, then the walk of the other
properties.  For `{"user": {"name": "a"}}` the generator returns the 13
candidates of `user.name` followed by the 13 of `user`. -/
theorem candidates_in_post_order :
    (∀ (body : Json) (mutations : List Mutation),
        generateMutations body body "" = .ok mutations →
        mutations.map Mutation.label = (walkFields body "").flatMap fieldLabels)
      ∧ (∀ (path key : String) (value : Json) (rest : List (String × Json)),
          walkFields (.obj ((key, value) :: rest)) path
            = walkFields value (joinPath path key) ++ [joinPath path key]
                ++ walkFields (.obj rest) path)
      ∧ (∀ field : String, fieldLabels field
          = ATTACK_VECTORS.map (fun vector => (field, vector.type, vector.payload)))
      ∧ walkFields userBody "" = ["user.name", "user"]
      ∧ (generateMutations userBody userBody "").map (List.map Mutation.label)
          = .ok (fieldLabels "user.name" ++ fieldLabels "user") := by
  refine ⟨fun body ms h => generateMutations_labels body body "" ms h, ?_, fun _ => rfl, rfl, rfl⟩
  intro path key value rest
  simp [walkFields, walkFieldsProps]

/-- C26, at an input: the body `{"xs": [1, {"k": null}]}`, whose candidates are
those of `xs.0`, `xs.1.k`, `xs.1` and `xs`, in this order. -/
theorem candidates_in_post_order_witness :
    (specCandidates (.obj [("xs", .arr [.num 1, .obj [("k", .null)]])])).map Mutation.label
      = (["xs.0", "xs.1.k", "xs.1", "xs"]).flatMap fieldLabels :=
  candidates_in_post_order.1 (.obj [("xs", .arr [.num 1, .obj [("k", .null)]])])
    (specCandidates (.obj [("xs", .arr [.num 1, .obj [("k", .null)]])])) rfl

/-! ## Capture ids and job ids -/

theorem captured_ids (reqs : List TrapRequest) :
    (captureAll [] reqs).map (fun r => r.id)
      = ((reqs.map (fun q => toString q.now)).reverse).take 50 := by
  rw [captureAll_eq_take reqs [] (by simp), List.append_nil, List.map_take, List.map_reverse,
    List.map_map]
  rfl

/-- When the clock readings of the captures increase strictly, the ids held
in the capture buffer are pairwise different. -/
theorem captured_ids_nodup_of_strict (reqs : List TrapRequest)
    (h : (reqs.map (fun q => q.now)).Pairwise (· < ·)) :
    ((captureAll [] reqs).map (fun r => r.id)).Nodup := by
  rw [captured_ids]
  refine List.Nodup.sublist (List.take_sublist _ _) ?_
  rw [List.nodup_reverse]
  have hn : (reqs.map (fun q => q.now)).Nodup := h.imp (fun hab => Nat.ne_of_lt hab)
  have := hn.map (f := fun n : Nat => toString n) (fun a b hab => toString_nat_injective a b hab)
  simpa [List.map_map, Function.comp_def] using this

/-- C21, at two captures within the same millisecond. The clock does not go
backwards, yet the second id is not greater than the first: both entries of
the buffer have the id `1700000000000`, the ids are not pairwise different,
and the lookup by that id finds the newer entry only. -/
theorem capture_ids_collide :
    (sameMsRequests.map (fun q => q.now)).Pairwise (· ≤ ·)
      ∧ (captureAll [] sameMsRequests).map (fun r => r.id)
          = ["1700000000000", "1700000000000"]
      ∧ ¬ ((captureAll [] sameMsRequests).map (fun r => r.id)).Nodup
      ∧ (captureAll [] sameMsRequests).map (fun r => r.body)
          = [.obj [("n", .num 2)], .obj [("n", .num 1)]]
      ∧ (findCaptured (captureAll [] sameMsRequests) (some (.str "1700000000000"))).map
            (fun r => r.body) = some (.obj [("n", .num 2)]) := by
  refine ⟨by decide, by decide, by decide, rfl, rfl⟩

/-- A submission whose job id is not yet a key of the job store leaves every
record of the store as it is, and a message of the run of one job leaves the
records under all other ids as they are. -/
theorem other_jobs_unchanged (srv : Server) (requestId targetUrl : Option Json) (now : Nat)
    (other : String) (hne : other ≠ toString now) :
    (mutateAttack srv requestId targetUrl now).1.mutationJobs.lookup other
        = srv.mutationJobs.lookup other
      ∧ (autoPilot srv targetUrl now).1.mutationJobs.lookup other
        = srv.mutationJobs.lookup other
      ∧ ∀ msg, (onWorkerMessage srv now msg).mutationJobs.lookup other
        = srv.mutationJobs.lookup other := by
  refine ⟨?_, ?_, ?_⟩
  · unfold mutateAttack
    cases srv.capturedRequests.find? (idMatches requestId) with
    | none => rfl
    | some r =>
      by_cases ht : falsy targetUrl = true
      · simp [ht]
      · simp [ht, lookup_setOwn_other _ _ _ _ hne]
  · unfold autoPilot
    by_cases ht : falsy targetUrl = true
    · simp [ht]
    · simp [ht, lookup_setOwn_other _ _ _ _ hne]
  · intro msg
    unfold onWorkerMessage
    cases srv.mutationJobs.lookup (toString now) with
    | none => rfl
    | some job => simp [lookup_setOwn_other _ _ _ _ hne]

/-- C22, at two submissions within the same millisecond. The first
submission stores a record under `1700000000500` and its run reports a
finding; the second submission is given the same id, which is already a key of
the job store, and replaces the record by a fresh one (the finding is gone);
the `done` message of the first run then marks the record of the second
submission as done.  The same happens when the second submission is an
auto-pilot job. -/
theorem job_ids_collide :
    (mutateAttack oneCaptureServer (some (.str "1700000000000"))
        (some (.str "http://target/hook")) 1700000000500).2 = .started "1700000000500"
      ∧ ((onWorkerMessage
            (mutateAttack oneCaptureServer (some (.str "1700000000000"))
              (some (.str "http://target/hook")) 1700000000500).1
            1700000000500 (.vulnerability sampleFinding)).mutationJobs.lookup
          "1700000000500").map (fun job => job.vulnerabilities.length) = some 1
      ∧ (mutateAttack
            (onWorkerMessage
              (mutateAttack oneCaptureServer (some (.str "1700000000000"))
                (some (.str "http://target/hook")) 1700000000500).1
              1700000000500 (.vulnerability sampleFinding))
            (some (.str "1700000000000")) (some (.str "http://other/hook")) 1700000000500).2
          = .started "1700000000500"
      ∧ ((mutateAttack
            (onWorkerMessage
              (mutateAttack oneCaptureServer (some (.str "1700000000000"))
                (some (.str "http://target/hook")) 1700000000500).1
              1700000000500 (.vulnerability sampleFinding))
            (some (.str "1700000000000")) (some (.str "http://other/hook"))
            1700000000500).1.mutationJobs.lookup "1700000000500").map
          (fun job => job.vulnerabilities.length) = some 0
      ∧ ((onWorkerMessage
            (mutateAttack
              (onWorkerMessage
                (mutateAttack oneCaptureServer (some (.str "1700000000000"))
                  (some (.str "http://target/hook")) 1700000000500).1
                1700000000500 (.vulnerability sampleFinding))
              (some (.str "1700000000000")) (some (.str "http://other/hook")) 1700000000500).1
            1700000000500 (.done 26 1)).mutationJobs.lookup "1700000000500").map
          (fun job => job.status) = some "done"
      ∧ ((autoPilot
            (onWorkerMessage
              (mutateAttack oneCaptureServer (some (.str "1700000000000"))
                (some (.str "http://target/hook")) 1700000000500).1
              1700000000500 (.vulnerability sampleFinding))
            (some (.str "http://other/")) 1700000000500).1.mutationJobs.lookup
          "1700000000500").map (fun job => job.vulnerabilities.length) = some 0 := by
  refine ⟨by decide, by decide, by decide, by decide, by decide, by decide⟩

/-! ## Replay -/

/-- C23, as the code has it. An unresolved capture id gives 404 whatever the
rest; otherwise a missing or empty `targetUrl` gives 400; otherwise the reply
carries the target's status exactly when the target answers with a status from
200 to 299, and is `Replay Failed` when the transport delivers no response or
the target answers with any other status. -/
theorem replay_outcomes (srv : Server) (requestId targetUrl : Option Json) (target : Forwarded) :
    ((∀ r ∈ srv.capturedRequests, requestId ≠ some (.str r.id)) →
        replay srv requestId targetUrl target = .notFound)
      ∧ ((∃ r ∈ srv.capturedRequests, requestId = some (.str r.id)) →
          falsy targetUrl = true → replay srv requestId targetUrl target = .badRequest)
      ∧ ((∃ r ∈ srv.capturedRequests, requestId = some (.str r.id)) →
          falsy targetUrl = false →
          (∀ status, target = .answered status → 200 ≤ status → status < 300 →
              ∃ id, requestId = some (.str id)
                ∧ replay srv requestId targetUrl target = .replayed id status)
            ∧ (∀ status, target = .answered status → (status < 200 ∨ 300 ≤ status) →
                replay srv requestId targetUrl target = .replayFailed)
            ∧ (target = .noResponse →
                replay srv requestId targetUrl target = .replayFailed)) := by
  refine ⟨?_, ?_, ?_⟩
  · intro h
    have hf : srv.capturedRequests.find? (idMatches requestId) = none := by
      rw [List.find?_eq_none]
      intro r hr hid
      exact h r hr ((idMatches_iff requestId r).1 hid)
    simp [replay, hf]
  · intro hres ht
    obtain ⟨r, hr⟩ := find_of_resolves srv requestId hres
    simp [replay, hr, ht]
  · intro hres ht
    obtain ⟨r, hr⟩ := find_of_resolves srv requestId hres
    have hid : requestId = some (.str r.id) :=
      (idMatches_iff requestId r).1 (List.find?_some hr)
    refine ⟨?_, ?_, ?_⟩
    · intro status htar h1 h2
      refine ⟨r.id, hid, ?_⟩
      simp [replay, hr, ht, htar, defaultValidateStatus, h1, h2]
    · intro status htar hout
      have : defaultValidateStatus status = false := by
        simp only [defaultValidateStatus, Bool.and_eq_false_iff, decide_eq_false_iff_not]
        omega
      simp [replay, hr, ht, htar, this]
    · intro htar
      simp [replay, hr, ht, htar]

/-- C23, as the code has it, at an input: the capture `1700000000000` replayed
to a target that answers 204. -/
theorem replay_outcomes_witness :
    replay oneCaptureServer (some (.str "1700000000000")) (some (.str "http://target/hook"))
        (.answered 204) = .replayed "1700000000000" 204 := by
  obtain ⟨id, hid, h⟩ := (replay_outcomes oneCaptureServer (some (.str "1700000000000"))
    (some (.str "http://target/hook")) (.answered 204)).2.2
    ⟨_, List.mem_singleton.2 rfl, rfl⟩ rfl |>.1 204 rfl (by decide) (by decide)
  cases hid
  exact h

/-- C23 as stated fails: the target answers the forwarded request with status
500 and the reply is `Replay Failed`, not the status. -/
theorem replay_of_answered_500_fails :
    replay oneCaptureServer (some (.str "1700000000000")) (some (.str "http://target/hook"))
        (.answered 500) = .replayFailed
      ∧ replay oneCaptureServer (some (.str "1700000000000")) (some (.str "http://target/hook"))
        (.answered 500) ≠ .replayed "1700000000000" 500 := by
  constructor <;> decide

/-! ## The auto-pilot attack list -/

/-- C27, at a target none of whose headers matches a signature (headers `{}`).
The detected technology stays `General`; `PAYLOADS["General"]` exists, so the
branch that adds everything is not taken and the attack list is General, SQL
and General again: 9 entries, none of the PHP and Node.js payloads.  The branch
is taken for a detected technology without a payload list (`Python`,
`ASP.NET`), and then the list holds every payload. -/
theorem attack_list_of_unknown_stack :
    detectTech "\x7b\x7d" = "General"
      ∧ attackList "General"
          = ["/..%2f..%2f..%2fetc%2fpasswd", "/.git/config", "/.env",
             "' OR '1'='1", "'; DROP TABLE users; --", "' UNION SELECT NULL, version() --",
             "/..%2f..%2f..%2fetc%2fpasswd", "/.git/config", "/.env"]
      ∧ "/index.php?cmd=cat /etc/passwd" ∈ allPayloads
      ∧ "/index.php?cmd=cat /etc/passwd" ∉ attackList "General"
      ∧ "/undefined" ∈ allPayloads
      ∧ "/undefined" ∉ attackList "General"
      ∧ detectTech "\x7b\"server\":\"gunicorn\"\x7d" = "Python"
      ∧ (∀ p ∈ allPayloads, p ∈ attackList "Python")
      ∧ (∀ p ∈ allPayloads, p ∈ attackList "ASP.NET") := by
  refine ⟨by decide, by decide, by decide, by decide, by decide, by decide, by decide,
    by decide, by decide⟩

/-- C29, at an input: the body `{"user": {"name": "a"}}` against a target that
always answers 500; the record ends as done with 26 vulnerabilities. -/
theorem sink_agrees_with_run_witness :
    (applyEvents Job.fresh
        (runAttack ⟨"1700000000000", "10:00:00", "POST", [], userBody⟩ "http://target/hook"
          always500).posted).status = "done"
      ∧ (applyEvents Job.fresh
          (runAttack ⟨"1700000000000", "10:00:00", "POST", [], userBody⟩ "http://target/hook"
            always500).posted).vulnerabilities.length
        = (runAttack ⟨"1700000000000", "10:00:00", "POST", [], userBody⟩ "http://target/hook"
            always500).vulnerabilitiesFound :=
  ⟨(sink_agrees_with_run ⟨"1700000000000", "10:00:00", "POST", [], userBody⟩
      "http://target/hook" always500 (specCandidates userBody) rfl).1,
   (sink_agrees_with_run ⟨"1700000000000", "10:00:00", "POST", [], userBody⟩
      "http://target/hook" always500 (specCandidates userBody) rfl).2.2.2.1⟩

/-! ## The static code scan: the `lastIndex` of the global patterns -/

/-- C30, at the content of two lines `eval(a)` and `eval(b)`. The regular
expression of `Dangerous Eval` matches line 2, and line 2 scanned alone is
reported, but after the match on line 1 the `lastIndex` of the regular
expression (flag `g`) is 5; the test of line 2 starts there, finds nothing and
resets `lastIndex`: the scan reports line 1 only.  Two lines that both match a
pattern without the `g` flag are both reported. -/
theorem scan_skips_line_after_global_match :
    scanCode "eval(a)\neval(b)"
        = [{ line := 1, type := "Dangerous Eval", severity := "Critical", code := "eval(a)" }]
      ∧ dangerousEval.matchesLine "eval(b)" = true
      ∧ scanCode "eval(b)"
        = [{ line := 1, type := "Dangerous Eval", severity := "Critical", code := "eval(b)" }]
      ∧ dangerousEval.global = true
      ∧ dangerousEval.test 0 "eval(a)".data = (true, 5)
      ∧ dangerousEval.test 5 "eval(b)".data = (false, 0)
      ∧ scanCode "pwd='a'\npwd='b'"
        = [{ line := 1, type := "Hardcoded Password", severity := "High", code := "pwd='a'" },
           { line := 2, type := "Hardcoded Password", severity := "High", code := "pwd='b'" }] := by
  refine ⟨rfl, rfl, rfl, rfl, rfl, rfl, rfl⟩

/-- A pattern without the `g` flag is tested on the line alone: the result
does not depend on `lastIndex`, and `lastIndex` stays as it is. -/
theorem test_without_global_flag (pat : Pattern) (h : pat.global = false) (lastIndex : Nat)
    (line : List Char) :
    pat.test lastIndex line = ((pat.regex.search 0 line).isSome, lastIndex) := by
  simp [Pattern.test, h]

/-! ## Object identity of the candidates -/

set_option maxRecDepth 100000 in
/-- C24, at the body `{"a": 1, "b": 2}`. The catalog's payload `{"$ne": null}`
is the object at address 0 and the body is the object at address 3.  The
candidates at positions 3 (field `a`) and 16 (field `b`) have bodies that are
different new objects (addresses 7 and 20), but both bodies hold, at the
mutated field, the reference to address 0, the catalog's own object, which is
also the `payload` of both candidates.  After the in-place write of `$ne = 1`
inside the injected payload of the candidate at position 3, the catalog's
object and with it the body of the candidate at position 16 have changed; the
original body has not. -/
theorem payload_objects_are_shared :
    sharedRun.map (fun r => (r.2.1[3]?, r.1[0]?, r.2.2.1, r.1[3]?))
        = some (some ("NoSQLi", .object 0),
            some { isArray := false, props := [("$ne", .null)] },
            .object 3,
            some { isArray := false, props := [("a", .num 1), ("b", .num 2)] })
      ∧ sharedRun.map (fun r => r.2.2.2[3]?)
        = some (some { mutationType := "NoSQLi", field := "a", payload := .object 0,
                       body := .object 7 })
      ∧ sharedRun.map (fun r => r.2.2.2[16]?)
        = some (some { mutationType := "NoSQLi", field := "b", payload := .object 0,
                       body := .object 20 })
      ∧ sharedRun.map (fun r => (r.1[7]?, r.1[20]?))
        = some (some { isArray := false, props := [("a", .object 0), ("b", .num 2)] },
            some { isArray := false, props := [("a", .num 1), ("b", .object 0)] })
      ∧ sharedRunAfterWrite.map (fun heap => (heap[0]?, heap[7]?, heap[20]?, heap[3]?))
        = some (some { isArray := false, props := [("$ne", .num 1)] },
            some { isArray := false, props := [("a", .object 0), ("b", .num 2)] },
            some { isArray := false, props := [("a", .num 1), ("b", .object 0)] },
            some { isArray := false, props := [("a", .num 1), ("b", .num 2)] }) := by
  refine ⟨by decide!, by decide!, by decide!, by decide!, by decide!⟩

end ChaosMonkey
